import Mathlib

/-!
# td2 / gnoland.go : failover dispatch, connect, signing detector, liveness ledger,
health prober, monitor loop

A shallow embedding of `src/tenderduty/td2/gnoland.go`.

* The network is an explicit parameter (`Rpc`): for the endpoint at a given
  position of `cc.Nodes` and a given request it says how far the HTTP exchange
  gets.  `encoding/json` is a parameter too (the two `unmarshal` fields).
* Every function that talks to the network returns, next to its Go result, the
  list of exchanges on which `client.Do` was called (the contacted endpoints).
* Pointer mutation of `cc` and of the `*NodeConfig` entries is explicit state
  passing.  A Go run-time panic is `none`.
* Log lines (`l(...)`) carry no state and are left out.
* Messages sent on `td.updateChan` are returned as a list of snapshots;
  `td.EnableDash` is a parameter.
-/

namespace Tenderduty

deriving instance DecidableEq for Except

/-! ## Data model -/

/-- GnoStatus.NodeInfo (gnoland.go 19-22). -/
structure GnoNodeInfo where
  Network : String
  Moniker : String
  deriving DecidableEq, Repr

/-- GnoStatus.SyncInfo (gnoland.go 23-27). -/
structure GnoSyncInfo where
  CatchingUp : Bool
  LatestBlockHeight : String
  LatestBlockTime : String
  deriving DecidableEq, Repr

/-- GnoStatus.ValidatorInfo.PubKey (gnoland.go 30-33); `Typ` is the Go field `Type`. -/
structure GnoPubKey where
  Typ : String
  Value : String
  deriving DecidableEq, Repr

/-- GnoStatus.ValidatorInfo (gnoland.go 28-35). -/
structure GnoValidatorInfo where
  Address : String
  PubKey : GnoPubKey
  VotingPower : String
  deriving DecidableEq, Repr

/-- GnoStatus, the status response of a Gnoland node (gnoland.go 18-36). -/
structure GnoStatus where
  NodeInfo : GnoNodeInfo
  SyncInfo : GnoSyncInfo
  ValidatorInfo : GnoValidatorInfo
  deriving DecidableEq, Repr

/-- Header of a block: height and time (gnoland.go 54-57 and 60-63). -/
structure GnoHeader where
  Height : String
  Time : String
  deriving DecidableEq, Repr

/-- One entry of Block.LastCommit.Precommits (gnoland.go 65-68). -/
structure GnoPrecommit where
  ValidatorAddress : String
  Signature : String
  deriving DecidableEq, Repr

/-- GnoBlockResponse.Block.LastCommit (gnoland.go 64-69). -/
structure GnoLastCommit where
  Precommits : List GnoPrecommit
  deriving DecidableEq, Repr

/-- GnoBlockResponse.Block (gnoland.go 59-70). -/
structure GnoBlock where
  Header : GnoHeader
  LastCommit : GnoLastCommit
  deriving DecidableEq, Repr

/-- GnoBlockResponse, the block response of a Gnoland node (gnoland.go 52-71). -/
structure GnoBlockResponse where
  BlockMetaHeader : GnoHeader
  Block : GnoBlock
  deriving DecidableEq, Repr

/-- NodeConfig: one RPC endpoint with its health fields.  The type is declared
outside gnoland.go; these are the fields gnoland.go reads and writes.
Times are Unix nanoseconds, `time.Unix(0, 0)` is 0. -/
structure NodeConfig where
  Url : String
  down : Bool
  syncing : Bool
  downSince : Int
  lastMsg : String
  wasDown : Bool
  deriving DecidableEq, Repr

/-- ValInfo: the observed validator state.  Declared outside gnoland.go; these
are the fields gnoland.go writes.  `Missed` and `Window` are int64. -/
structure ValInfo where
  Moniker : String
  Bonded : Bool
  Jailed : Bool
  Tombstoned : Bool
  Missed : Int
  Window : Int
  Conspub : List Nat
  deriving DecidableEq, Repr

/-- ChainConfig: the per-chain state gnoland.go uses.  `valInfo = none` is the
nil pointer, `blocksResults = none` is the nil slice. -/
structure ChainConfig where
  name : String
  ChainId : String
  ValAddress : String
  Nodes : List NodeConfig
  noNodes : Bool
  lastError : String
  valInfo : Option ValInfo
  blocksResults : Option (List Int)
  deriving DecidableEq, Repr

/-! ## The network -/

/-- The GET request built at gnoland.go 87-107: the URL and, when `params` is
not nil, the query parameters added to it. -/
structure Request where
  url : String
  params : Option (List (String × String))
  deriving DecidableEq, Repr

/-- How far one HTTP exchange gets (gnoland.go 95-120 and 423-455):
`http.NewRequestWithContext` fails, `client.Do` fails (transport error or
timeout), `io.ReadAll` fails, or the body is read. -/
inductive Response where
  | requestError (err : String)
  | transportError (err : String)
  | readError (err : String)
  | body (bytes : String)
  deriving DecidableEq, Repr

/-- The environment of one operation: what the endpoint at position `i` of
`cc.Nodes` answers to a request, and `json.Unmarshal` into the status and
block envelopes (an error carries the decoder's message). -/
structure Rpc where
  respond : Nat → Request → Response
  unmarshalStatus : String → Except String GnoStatus
  unmarshalBlock : String → Except String GnoBlockResponse

/-- One exchange on which `client.Do` was called: endpoint position and request. -/
abbrev Contact := Nat × Request

/-- Go strings.TrimSuffix(s, "/"). -/
def trimSlash (s : String) : String :=
  match s.data.reverse with
  | '/' :: r => String.mk r.reverse
  | _ => s

/-- The request of gnoland.go 87-107 for one node. -/
def buildRequest (node : NodeConfig) (endpoint : String)
    (params : Option (List (String × String))) : Request :=
  { url := trimSlash node.Url ++ endpoint, params := params }

/-! ## RPC gateway -/

/-- The loop of gnolandHTTPRequest (gnoland.go 81-123) from position `i` on. -/
def gnolandHTTPRequestLoop (rpc : Rpc) (endpoint : String)
    (params : Option (List (String × String))) :
    Nat → List NodeConfig → Except String String × List Contact
  | _, [] => (.error "no working nodes available", [])
  | i, node :: rest =>
    if node.down then
      gnolandHTTPRequestLoop rpc endpoint params (i + 1) rest
    else
      match rpc.respond i (buildRequest node endpoint params) with
      | .requestError _ => gnolandHTTPRequestLoop rpc endpoint params (i + 1) rest
      | .transportError _ =>
        let r := gnolandHTTPRequestLoop rpc endpoint params (i + 1) rest
        (r.1, (i, buildRequest node endpoint params) :: r.2)
      | .readError _ =>
        let r := gnolandHTTPRequestLoop rpc endpoint params (i + 1) rest
        (r.1, (i, buildRequest node endpoint params) :: r.2)
      | .body b => (.ok b, [(i, buildRequest node endpoint params)])

/-- Function gnolandHTTPRequest (gnoland.go 79-124). -/
def gnolandHTTPRequest (rpc : Rpc) (cc : ChainConfig) (endpoint : String)
    (params : Option (List (String × String))) : Except String String × List Contact :=
  gnolandHTTPRequestLoop rpc endpoint params 0 cc.Nodes

/-- Function gnolandGetStatus (gnoland.go 127-143). -/
def gnolandGetStatus (rpc : Rpc) (cc : ChainConfig) : Except String GnoStatus × List Contact :=
  match gnolandHTTPRequest rpc cc "/status" none with
  | (.error err, tr) => (.error err, tr)
  | (.ok body, tr) =>
    match rpc.unmarshalStatus body with
    | .error err => (.error ("failed to unmarshal status response: " ++ err), tr)
    | .ok result => (.ok result, tr)

/-- Function gnolandGetBlock (gnoland.go 146-173). -/
def gnolandGetBlock (rpc : Rpc) (cc : ChainConfig) (height : String) :
    Except String GnoBlockResponse × List Contact :=
  match gnolandHTTPRequest rpc cc "/block" (some [("height", height)]) with
  | (.error err, tr) => (.error err, tr)
  | (.ok body, tr) =>
    match rpc.unmarshalBlock body with
    | .error err => (.error ("failed to unmarshal block response: " ++ err), tr)
    | .ok result => (.ok result, tr)

/-- The scan of gnoland.go 194-209 over the precommits. -/
def scanPrecommits (validatorAddr : String) : List GnoPrecommit → Int
  | [] => 0
  | sig :: rest =>
    if sig.ValidatorAddress = validatorAddr then
      if sig.Signature ≠ "" then 3 else scanPrecommits validatorAddr rest
    else scanPrecommits validatorAddr rest

/-- Function gnolandCheckValidatorSigned (gnoland.go 176-210). -/
def gnolandCheckValidatorSigned (rpc : Rpc) (cc : ChainConfig) (height : String) :
    Int × List Contact :=
  match gnolandGetBlock rpc cc height with
  | (.error _, tr) => (-1, tr)
  | (.ok block, tr) => (scanPrecommits cc.ValAddress block.Block.LastCommit.Precommits, tr)

/-- The healthy-node count of gnolandMonitorBlocks (gnoland.go 377-382),
continued from the running count `healthyNodes`. -/
def countHealthyNodes : List NodeConfig → Nat → Nat
  | [], healthyNodes => healthyNodes
  | node :: rest, healthyNodes =>
    if !node.down && !node.syncing then countHealthyNodes rest (healthyNodes + 1)
    else countHealthyNodes rest healthyNodes

/-! ## Liveness ledger -/

/-- Go int64 arithmetic: the value wrapped into the range of int64. -/
def wrapInt64 (x : Int) : Int :=
  (x + 9223372036854775808) % 18446744073709551616 - 9223372036854775808

/-- Value of one hexadecimal digit, as in encoding/hex. -/
def fromHexChar (c : Char) : Option Nat :=
  if '0' ≤ c ∧ c ≤ '9' then some (c.toNat - '0'.toNat)
  else if 'a' ≤ c ∧ c ≤ 'f' then some (c.toNat - 'a'.toNat + 10)
  else if 'A' ≤ c ∧ c ≤ 'F' then some (c.toNat - 'A'.toNat + 10)
  else none

/-- Go hex.DecodeString restricted to its success case: `none` is a non-nil
error (odd length or a character that is no hexadecimal digit). -/
def hexDecodeString : List Char → Option (List Nat)
  | [] => some []
  | [_] => none
  | a :: b :: rest =>
    match fromHexChar a, fromHexChar b, hexDecodeString rest with
    | some x, some y, some bytes => some ((16 * x + y) :: bytes)
    | _, _, _ => none

/-- Go strings.TrimPrefix(s, "g"). -/
def trimG (s : String) : String :=
  match s.data with
  | 'g' :: r => String.mk r
  | _ => s

/-- Function gnolandGetValidatorInfo (gnoland.go 285-317); it always returns a
nil error, so only the new state is returned. -/
def gnolandGetValidatorInfo (cc : ChainConfig) : ChainConfig :=
  let valInfo : ValInfo :=
    match cc.valInfo with
    | none => { Moniker := "", Bonded := false, Jailed := false, Tombstoned := false,
                Missed := 0, Window := 0, Conspub := [] }
    | some v => v
  let valInfo := { valInfo with
    Moniker := cc.ValAddress, Bonded := true, Jailed := false, Tombstoned := false,
    Missed := 0, Window := 100 }
  let valInfo :=
    match hexDecodeString (trimG cc.ValAddress).data with
    | some validatorBytes => { valInfo with Conspub := validatorBytes }
    | none => valInfo
  let blocksResults :=
    match cc.blocksResults with
    | none => List.replicate 512 (-1)
    | some bs => bs
  { cc with valInfo := some valInfo, blocksResults := some blocksResults }

/-- The ledger update of gnolandMonitorBlocks for one sign status
(gnoland.go 357-369), the operation the specification calls recordOutcome.
`none` is a run-time panic: slicing an empty window at `len - 1`, or
dereferencing a nil `valInfo` on a missed block. -/
def recordOutcome (cc : ChainConfig) (signStatus : Int) : Option ChainConfig :=
  match cc.blocksResults.getD [] with
  | [] => none
  | b :: bs =>
    let cc := { cc with
      blocksResults := some (signStatus :: (b :: bs).take ((b :: bs).length - 1)) }
    if signStatus = 0 then
      match cc.valInfo with
      | none => none
      | some v =>
        let missed := wrapInt64 (v.Missed + 1)
        let missed := if missed > v.Window then v.Window else missed
        some { cc with valInfo := some { v with Missed := missed } }
    else
      some cc

/-- The ledger updates for a sequence of sign statuses, oldest first. -/
def recordOutcomes (cc : ChainConfig) : List Int → Option ChainConfig
  | [] => some cc
  | signStatus :: rest =>
    match recordOutcome cc signStatus with
    | none => none
    | some cc => recordOutcomes cc rest

/-! ## Health prober -/

/-- The failure branch shared by gnoland.go 425-430, 436-441, 448-453 and
462-467: a node that is not yet down is marked down at time `now` with `msg`. -/
def markDown (node : NodeConfig) (now : Int) (msg : String) : NodeConfig :=
  if !node.down then { node with down := true, downSince := now, lastMsg := msg }
  else node

/-- The probe of one node in gnolandHealthCheck (the goroutine body,
gnoland.go 418-488), for the node at position `i`, run at time `now`.
Returns the node after the probe, the chain-level noNodes flag after the probe,
and the contacts made. -/
def gnolandHealthCheckNode (rpc : Rpc) (now : Int) (cc : ChainConfig) (i : Nat)
    (node : NodeConfig) : NodeConfig × Bool × List Contact :=
  let req : Request := buildRequest node "/status" none
  let downMsg := fun (err : String) =>
    "❌ " ++ cc.name ++ " node " ++ node.Url ++ " is down: " ++ err
  match rpc.respond i req with
  | .requestError err => (markDown node now (downMsg err), cc.noNodes, [])
  | .transportError err => (markDown node now (downMsg err), cc.noNodes, [(i, req)])
  | .readError err => (markDown node now (downMsg err), cc.noNodes, [(i, req)])
  | .body body =>
    match rpc.unmarshalStatus body with
    | .error err =>
      (markDown node now
        ("❌ " ++ cc.name ++ " node " ++ node.Url ++ " response error: " ++ err),
       cc.noNodes, [(i, req)])
    | .ok result =>
      if result.SyncInfo.CatchingUp then
        ({ node with syncing := true,
                     lastMsg := "🐢 " ++ cc.name ++ " node " ++ node.Url ++ " is syncing" },
         cc.noNodes, [(i, req)])
      else
        let node := if node.down then { node with lastMsg := "", wasDown := true } else node
        ({ node with down := false, syncing := false, downSince := 0 }, false, [(i, req)])

/-- One probe of the health prober applied to the registry: the node at
position `i` is probed and written back, noNodes is updated. -/
def gnolandHealthCheckAt (rpc : Rpc) (now : Int) (cc : ChainConfig) (i : Nat) : ChainConfig :=
  match cc.Nodes[i]? with
  | none => cc
  | some node =>
    let r := gnolandHealthCheckNode rpc now cc i node
    { cc with Nodes := cc.Nodes.set i r.1, noNodes := r.2.1 }

/-- The probe of a node fails: the exchange does not yield a body, or the body
does not decode as a status envelope. -/
def ProbeFails (rpc : Rpc) (i : Nat) (node : NodeConfig) : Prop :=
  ∀ b, rpc.respond i (buildRequest node "/status" none) = .body b →
    ∃ err, rpc.unmarshalStatus b = .error err

/-- The probe of a node succeeds and the node reports that it is not catching up. -/
def ProbeHealthy (rpc : Rpc) (i : Nat) (node : NodeConfig) : Prop :=
  ∃ b st, rpc.respond i (buildRequest node "/status" none) = .body b ∧
    rpc.unmarshalStatus b = .ok st ∧ st.SyncInfo.CatchingUp = false

/-! ## Dashboard snapshot -/

/-- The dash.ChainStatus message sent on td.updateChan.  The type is declared in
the dashboard package; these are the fields gnoland.go fills (gnoland.go 262-278
and 384-400).  `Blocks = none` is the nil slice. -/
structure ChainStatus where
  MsgType : String
  Name : String
  ChainId : String
  Moniker : String
  Bonded : Bool
  Jailed : Bool
  Tombstoned : Bool
  Missed : Int
  Window : Int
  Nodes : Nat
  HealthyNodes : Nat
  ActiveAlerts : Nat
  Height : Int
  LastError : String
  Blocks : Option (List Int)
  deriving DecidableEq, Repr

/-! ## Connect -/

/-- The loop of gnolandNewRpc (gnoland.go 218-255).  `done` holds the entries of
cc.Nodes already visited, in their state after the visit; `endpoint :: rest` are
the entries still to visit, so the registry during the visit of `endpoint` is
`done ++ endpoint :: rest`, and that is the registry gnolandGetStatus walks.
Returns the position at which the loop returned nil (`none` when the loop ran
out), the registry afterwards and the contacts made. -/
def gnolandNewRpcLoop (rpc : Rpc) (cc : ChainConfig) :
    List NodeConfig → List NodeConfig → Option Nat × List NodeConfig × List Contact
  | done, [] => (none, done, [])
  | done, endpoint :: rest =>
    if endpoint.down then
      gnolandNewRpcLoop rpc cc (done ++ [endpoint]) rest
    else
      let r := gnolandGetStatus rpc { cc with Nodes := done ++ endpoint :: rest }
      match r.1 with
      | .error err =>
        let next := gnolandNewRpcLoop rpc cc
          (done ++ [{ endpoint with
            down := true,
            lastMsg := "❌ could not get status for " ++ cc.name ++ ": " ++ err }]) rest
        (next.1, next.2.1, r.2 ++ next.2.2)
      | .ok status =>
        if status.NodeInfo.Network ≠ cc.ChainId then
          let next := gnolandNewRpcLoop rpc cc
            (done ++ [{ endpoint with
              down := true,
              lastMsg := "chain id " ++ status.NodeInfo.Network ++ " on " ++ endpoint.Url
                ++ " does not match, expected " ++ cc.ChainId }]) rest
          (next.1, next.2.1, r.2 ++ next.2.2)
        else if status.SyncInfo.CatchingUp then
          let next := gnolandNewRpcLoop rpc cc
            (done ++ [{ endpoint with
              down := true, syncing := true,
              lastMsg := "🐢 node is not synced, skipping " ++ endpoint.Url }]) rest
          (next.1, next.2.1, r.2 ++ next.2.2)
        else
          (some done.length,
           done ++ { endpoint with down := false, syncing := false } :: rest, r.2)

/-- What gnolandNewRpc returns and leaves behind: the error (`none` is nil; an
error carries cc.lastError, the format string given to fmt.Errorf), the chain
state, the position of the endpoint at which the loop returned (the one logged
as connected), the contacts made and the snapshots sent on td.updateChan. -/
structure NewRpcResult where
  err : Option String
  cc : ChainConfig
  accepted : Option Nat
  contacts : List Contact
  snapshots : List ChainStatus

/-- Function gnolandNewRpc (gnoland.go 213-282); `enableDash` is td.EnableDash. -/
def gnolandNewRpc (rpc : Rpc) (enableDash : Bool) (cc : ChainConfig) : NewRpcResult :=
  match gnolandNewRpcLoop rpc cc [] cc.Nodes with
  | (some i, nodes, tr) =>
    { err := none, cc := { cc with Nodes := nodes, noNodes := false },
      accepted := some i, contacts := tr, snapshots := [] }
  | (none, nodes, tr) =>
    let cc := { cc with
      Nodes := nodes, noNodes := true,
      lastError := "no usable Gnoland endpoints available for " ++ cc.ChainId }
    { err := some cc.lastError, cc := cc, accepted := none, contacts := tr,
      snapshots :=
        if enableDash then
          [{ MsgType := "status", Name := cc.name, ChainId := cc.ChainId,
             Moniker := "Unknown", Bonded := false, Jailed := false, Tombstoned := false,
             Missed := 0, Window := 0, Nodes := cc.Nodes.length, HealthyNodes := 0,
             ActiveAlerts := 1, Height := 0, LastError := cc.lastError,
             Blocks := cc.blocksResults }]
        else [] }

/-- The status an endpoint itself reports: the body it answers to /status,
decoded; `none` when it does not answer or the body does not decode. -/
def ownStatus (rpc : Rpc) (i : Nat) (node : NodeConfig) : Option GnoStatus :=
  match rpc.respond i (buildRequest node "/status" none) with
  | .body b =>
    match rpc.unmarshalStatus b with
    | .ok st => some st
    | .error _ => none
  | _ => none

/-- The checks of connect on a status (gnoland.go 233 and 241): the chain id is
the configured one and the node is not catching up. -/
def PassesChecks (cc : ChainConfig) (st : GnoStatus) : Prop :=
  st.NodeInfo.Network = cc.ChainId ∧ st.SyncInfo.CatchingUp = false

instance (cc : ChainConfig) (st : GnoStatus) : Decidable (PassesChecks cc st) := by
  unfold PassesChecks
  infer_instance

/-- The endpoint at position `i` passes the three connect checks itself: it is
not down, it answers /status with a body that decodes, and that status passes. -/
def EndpointPasses (rpc : Rpc) (cc : ChainConfig) (i : Nat) (node : NodeConfig) : Prop :=
  node.down = false ∧ ∃ st, ownStatus rpc i node = some st ∧ PassesChecks cc st

/-! ## Monitor loop -/

/-- Value of a string of decimal digits continued from `acc`; `none` when a
character is not a decimal digit. -/
def digitsValue : List Char → Nat → Option Nat
  | [], acc => some acc
  | c :: cs, acc =>
    if '0' ≤ c ∧ c ≤ '9' then digitsValue cs (10 * acc + (c.toNat - '0'.toNat)) else none

/-- Go strconv.ParseInt(s, 10, 64) restricted to its success case: `none` is a
non-nil error (empty string, a sign alone, a character that is no decimal
digit, or a value outside int64). -/
def parseInt64 (s : String) : Option Int :=
  match s.data with
  | [] => none
  | '-' :: ds =>
    if ds = [] then none
    else match digitsValue ds 0 with
      | some n => if n ≤ 9223372036854775808 then some (-(n : Int)) else none
      | none => none
  | '+' :: ds =>
    if ds = [] then none
    else match digitsValue ds 0 with
      | some n => if n < 9223372036854775808 then some (n : Int) else none
      | none => none
  | ds =>
    match digitsValue ds 0 with
    | some n => if n < 9223372036854775808 then some (n : Int) else none
    | none => none

/-- The height of gnoland.go 345-348: the parsed latest_block_height of the
status, 0 when it does not parse. -/
def latestHeight (status : GnoStatus) : Int :=
  match parseInt64 status.SyncInfo.LatestBlockHeight with
  | some blockHeight => blockHeight
  | none => 0

/-- The state one iteration of the monitor loop leaves behind, with what it did:
the chain state, the local variable lastProcessedHeight, the contacts made and
the snapshots sent on td.updateChan. -/
structure TickResult where
  cc : ChainConfig
  lastProcessedHeight : Int
  contacts : List Contact
  snapshots : List ChainStatus
  deriving DecidableEq, Repr

/-- The dash.ChainStatus built at gnoland.go 384-400 from the chain state, the
ValInfo behind cc.valInfo and the height of this tick. -/
def monitorStatus (cc : ChainConfig) (v : ValInfo) (height : Int) : ChainStatus :=
  { MsgType := "status", Name := cc.name, ChainId := cc.ChainId,
    Moniker := v.Moniker, Bonded := v.Bonded, Jailed := v.Jailed,
    Tombstoned := v.Tombstoned, Missed := v.Missed, Window := v.Window,
    Nodes := cc.Nodes.length, HealthyNodes := countHealthyNodes cc.Nodes 0,
    ActiveAlerts := 0, Height := height, LastError := "",
    Blocks := cc.blocksResults }

/-- The dashboard update at the end of a tick (gnoland.go 375-401).  `none` is
the nil-pointer panic on cc.valInfo. -/
def tickSnapshot (enableDash : Bool) (cc : ChainConfig) (height : Int) :
    Option (List ChainStatus) :=
  if enableDash then
    match cc.valInfo with
    | none => none
    | some v => some [monitorStatus cc v height]
  else some []

/-- One iteration of the loop of gnolandMonitorBlocks on a ticker event
(gnoland.go 332-402).  `none` is a run-time panic. -/
def gnolandMonitorBlocksTick (rpc : Rpc) (enableDash : Bool) (cc : ChainConfig)
    (lastProcessedHeight : Int) : Option TickResult :=
  if cc.noNodes then
    some { cc := cc, lastProcessedHeight := lastProcessedHeight, contacts := [], snapshots := [] }
  else
    match gnolandGetStatus rpc cc with
    | (.error _, tr) =>
      some { cc := cc, lastProcessedHeight := lastProcessedHeight, contacts := tr,
             snapshots := [] }
    | (.ok status, tr) =>
      if !status.SyncInfo.CatchingUp then
        let height : Int := latestHeight status
        if height > lastProcessedHeight then
          let signed := gnolandCheckValidatorSigned rpc cc status.SyncInfo.LatestBlockHeight
          match recordOutcome cc signed.1 with
          | none => none
          | some cc =>
            match tickSnapshot enableDash cc height with
            | none => none
            | some snaps =>
              some { cc := cc, lastProcessedHeight := height, contacts := tr ++ signed.2,
                     snapshots := snaps }
        else
          match tickSnapshot enableDash cc height with
          | none => none
          | some snaps =>
            some { cc := cc, lastProcessedHeight := lastProcessedHeight, contacts := tr,
                   snapshots := snaps }
      else
        some { cc := cc, lastProcessedHeight := lastProcessedHeight, contacts := tr,
               snapshots := [] }

/-- Consecutive ticks of the monitor loop, one network per tick, starting from
the given chain state and lastProcessedHeight; contacts and snapshots add up. -/
def gnolandMonitorBlocksTicks (enableDash : Bool) :
    ChainConfig → Int → List Rpc → Option TickResult
  | cc, lastProcessedHeight, [] =>
    some { cc := cc, lastProcessedHeight := lastProcessedHeight, contacts := [], snapshots := [] }
  | cc, lastProcessedHeight, rpc :: rest =>
    match gnolandMonitorBlocksTick rpc enableDash cc lastProcessedHeight with
    | none => none
    | some r =>
      match gnolandMonitorBlocksTicks enableDash r.cc r.lastProcessedHeight rest with
      | none => none
      | some r2 =>
        some { cc := r2.cc, lastProcessedHeight := r2.lastProcessedHeight,
               contacts := r.contacts ++ r2.contacts, snapshots := r.snapshots ++ r2.snapshots }

/-! ## The failover request with the chain state it leaves -/

/-- The loop of gnolandHTTPRequest (gnoland.go 81-123) with the registry carried
through it, as in gnolandNewRpcLoop: `done` holds the entries already visited,
in their state after the visit, `node :: rest` the entries still to visit, and
the position of `node` is `done.length`.  Every exit of the loop body (the four
`continue` and the `return body, nil`) leaves `node` as it found it.  Returns
the Go result with the contacts, and the registry after the loop. -/
def gnolandHTTPRequestRunLoop (rpc : Rpc) (endpoint : String)
    (params : Option (List (String × String))) :
    List NodeConfig → List NodeConfig →
      (Except String String × List Contact) × List NodeConfig
  | done, [] => ((.error "no working nodes available", []), done)
  | done, node :: rest =>
    if node.down then
      gnolandHTTPRequestRunLoop rpc endpoint params (done ++ [node]) rest
    else
      match rpc.respond done.length (buildRequest node endpoint params) with
      | .requestError _ => gnolandHTTPRequestRunLoop rpc endpoint params (done ++ [node]) rest
      | .transportError _ =>
        let r := gnolandHTTPRequestRunLoop rpc endpoint params (done ++ [node]) rest
        ((r.1.1, (done.length, buildRequest node endpoint params) :: r.1.2), r.2)
      | .readError _ =>
        let r := gnolandHTTPRequestRunLoop rpc endpoint params (done ++ [node]) rest
        ((r.1.1, (done.length, buildRequest node endpoint params) :: r.1.2), r.2)
      | .body b =>
        ((.ok b, [(done.length, buildRequest node endpoint params)]), done ++ node :: rest)

/-- Function gnolandHTTPRequest (gnoland.go 79-124) with the chain state after
the call. -/
def gnolandHTTPRequestRun (rpc : Rpc) (cc : ChainConfig) (endpoint : String)
    (params : Option (List (String × String))) :
    (Except String String × List Contact) × ChainConfig :=
  let r := gnolandHTTPRequestRunLoop rpc endpoint params [] cc.Nodes
  (r.1, { cc with Nodes := r.2 })

/-- Function gnolandGetStatus (gnoland.go 127-143) with the chain state after
the call. -/
def gnolandGetStatusRun (rpc : Rpc) (cc : ChainConfig) :
    (Except String GnoStatus × List Contact) × ChainConfig :=
  match gnolandHTTPRequestRun rpc cc "/status" none with
  | ((.error err, tr), cc) => ((.error err, tr), cc)
  | ((.ok body, tr), cc) =>
    match rpc.unmarshalStatus body with
    | .error err => ((.error ("failed to unmarshal status response: " ++ err), tr), cc)
    | .ok result => ((.ok result, tr), cc)

/-- Function gnolandGetBlock (gnoland.go 146-173) with the chain state after
the call. -/
def gnolandGetBlockRun (rpc : Rpc) (cc : ChainConfig) (height : String) :
    (Except String GnoBlockResponse × List Contact) × ChainConfig :=
  match gnolandHTTPRequestRun rpc cc "/block" (some [("height", height)]) with
  | ((.error err, tr), cc) => ((.error err, tr), cc)
  | ((.ok body, tr), cc) =>
    match rpc.unmarshalBlock body with
    | .error err => ((.error ("failed to unmarshal block response: " ++ err), tr), cc)
    | .ok result => ((.ok result, tr), cc)

/-! ## Operations on the registry -/

/-- The operations of gnoland.go that read or write the node registry:
connect (gnolandNewRpc), one probe of the health prober on the endpoint at a
position, and a failover request (gnolandHTTPRequest, which gnolandGetStatus
and gnolandGetBlock wrap). -/
inductive RegistryOp where
  | connect (rpc : Rpc) (enableDash : Bool)
  | probe (rpc : Rpc) (now : Int) (i : Nat)
  | request (rpc : Rpc) (endpoint : String) (params : Option (List (String × String)))

/-- The chain state after an operation. -/
def applyOp (cc : ChainConfig) : RegistryOp → ChainConfig
  | .connect rpc enableDash => (gnolandNewRpc rpc enableDash cc).cc
  | .probe rpc now i => gnolandHealthCheckAt rpc now cc i
  | .request rpc endpoint params => (gnolandHTTPRequestRun rpc cc endpoint params).2

/-- The chain state after a sequence of operations. -/
def applyOps (cc : ChainConfig) : List RegistryOp → ChainConfig
  | [] => cc
  | op :: rest => applyOps (applyOp cc op) rest

/-- The ledger is initialised: ValInfo is present and the window is not empty. -/
def LedgerReady (cc : ChainConfig) : Prop :=
  ∃ v w, cc.valInfo = some v ∧ cc.blocksResults = some w ∧ w ≠ []

/-- The endpoint invariant of the registry: a down endpoint carries a message. -/
def DownHasMsg (nodes : List NodeConfig) : Prop :=
  ∀ n ∈ nodes, n.down = true → n.lastMsg ≠ ""

/-! ## Test fixtures -/

/-- A node with the given URL and down flag, everything else zero. -/
def mkNode (url : String) (down : Bool) : NodeConfig :=
  { Url := url, down := down, syncing := false, downSince := 0, lastMsg := if down then "down" else "",
    wasDown := false : NodeConfig }

/-- Two endpoints, the first one marked down. -/
def twoNodesFirstDown : ChainConfig :=
  { name := "gno", ChainId := "test6", ValAddress := "g1abc",
    Nodes := [mkNode "http://a/" true, mkNode "http://b" false],
    noNodes := false, lastError := "", valInfo := none, blocksResults := none }

/-- A network in which every endpoint answers every request with the body "ok". -/
def rpcAllOk : Rpc :=
  { respond := fun _ _ => .body "ok",
    unmarshalStatus := fun _ => .error "unexpected end of JSON input",
    unmarshalBlock := fun _ => .error "unexpected end of JSON input" }

/-- Two endpoints, both marked down. -/
def twoNodesDown : ChainConfig :=
  { twoNodesFirstDown with Nodes := [mkNode "http://a/" true, mkNode "http://b" true] }

/-- Two endpoints, both live. -/
def twoNodesUp : ChainConfig :=
  { twoNodesFirstDown with Nodes := [mkNode "http://a/" false, mkNode "http://b" false] }

/-- The status a healthy test6 node reports at height 100. -/
def statusAt100 : GnoStatus :=
  { NodeInfo := { Network := "test6", Moniker := "node" },
    SyncInfo := { CatchingUp := false, LatestBlockHeight := "100", LatestBlockTime := "" },
    ValidatorInfo := { Address := "g1abc", PubKey := { Typ := "", Value := "" },
                       VotingPower := "1" } }

/-- A block whose only precommit is by validator `addr` with signature `sig`. -/
def blockWith (addr sig : String) : GnoBlockResponse :=
  { BlockMetaHeader := { Height := "101", Time := "" },
    Block := { Header := { Height := "101", Time := "" },
               LastCommit := { Precommits := [{ ValidatorAddress := addr, Signature := sig }] } } }

/-- A network in which the first endpoint answers with an empty body, which
does not decode, and every other endpoint with a body that does. -/
def rpcFirstGarbled : Rpc :=
  { respond := fun i _ => if i = 0 then .body "" else .body "good",
    unmarshalStatus := fun b =>
      if b = "good" then .ok statusAt100 else .error "unexpected end of JSON input",
    unmarshalBlock := fun b =>
      if b = "good" then .ok (blockWith "g1abc" "c2ln") else .error "unexpected end of JSON input" }

/-- One endpoint that is catching up according to the health prober (syncing
set) and is not down. -/
def oneNodeSyncing : ChainConfig :=
  { twoNodesFirstDown with
    Nodes := [{ mkNode "http://a/" false with syncing := true, lastMsg := "syncing" }] }

/-- A chain configuration before the first validator-info fetch. -/
def freshChain : ChainConfig :=
  { name := "gno", ChainId := "test6", ValAddress := "g1abc",
    Nodes := [mkNode "http://a/" false],
    noNodes := false, lastError := "", valInfo := none, blocksResults := none }

/-- A network on which no endpoint can be reached. -/
def rpcAllDead : Rpc :=
  { respond := fun _ _ => .transportError "connection refused",
    unmarshalStatus := fun _ => .error "unexpected end of JSON input",
    unmarshalBlock := fun _ => .error "unexpected end of JSON input" }

/-- A network on which every endpoint reports the healthy status at height 100. -/
def rpcHealthy : Rpc :=
  { respond := fun _ _ => .body "good",
    unmarshalStatus := fun _ => .ok statusAt100,
    unmarshalBlock := fun _ => .ok (blockWith "g1abc" "c2ln") }

/-- A network on which the first endpoint cannot be reached and every other
endpoint reports the healthy status at height 100. -/
def rpcFirstDead : Rpc :=
  { respond := fun i _ => if i = 0 then .transportError "connection refused" else .body "good",
    unmarshalStatus := fun _ => .ok statusAt100,
    unmarshalBlock := fun _ => .ok (blockWith "g1abc" "c2ln") }

/-- A status with the given chain id and catching-up flag. -/
def statusOf (network : String) (catchingUp : Bool) : GnoStatus :=
  { statusAt100 with
    NodeInfo := { Network := network, Moniker := "node" },
    SyncInfo := { CatchingUp := catchingUp, LatestBlockHeight := "100", LatestBlockTime := "" } }

/-- Three live endpoints. -/
def threeNodesUp : ChainConfig :=
  { twoNodesFirstDown with
    Nodes := [mkNode "http://a/" false, mkNode "http://b" false, mkNode "http://c" false] }

/-- A network on which endpoint 0 reports another chain id, endpoint 1 reports
catching up and every other endpoint is healthy. -/
def rpcMismatchSyncingHealthy : Rpc :=
  { respond := fun i _ => if i = 0 then .body "other" else if i = 1 then .body "slow"
                          else .body "good",
    unmarshalStatus := fun b =>
      if b = "other" then .ok (statusOf "other-chain" false)
      else if b = "slow" then .ok (statusOf "test6" true)
      else .ok statusAt100,
    unmarshalBlock := fun _ => .ok (blockWith "g1abc" "c2ln") }

/-- A network on which endpoint 0 reports another chain id and catching up at
once, and every other endpoint is healthy. -/
def rpcMismatchAndSyncing : Rpc :=
  { respond := fun i _ => if i = 0 then .body "other" else .body "good",
    unmarshalStatus := fun b =>
      if b = "other" then .ok (statusOf "other-chain" true) else .ok statusAt100,
    unmarshalBlock := fun _ => .ok (blockWith "g1abc" "c2ln") }

/-- The chain after its first validator-info fetch, with 7 missed blocks counted. -/
def chainWithMissed : ChainConfig :=
  { freshChain with
    valInfo := some { Moniker := "g1abc", Bonded := true, Jailed := false, Tombstoned := false,
                      Missed := 7, Window := 100, Conspub := [26, 188] },
    blocksResults := some (List.replicate 512 (-1)) }

/-- A network on which every endpoint reports height 100 and the block request fails
to decode. -/
def rpcBlockGarbled : Rpc :=
  { respond := fun _ _ => .body "good",
    unmarshalStatus := fun _ => .ok statusAt100,
    unmarshalBlock := fun _ => .error "unexpected end of JSON input" }

/-- A network on which every endpoint reports a latest height that is no number. -/
def rpcHeightGarbled : Rpc :=
  { respond := fun _ _ => .body "good",
    unmarshalStatus := fun _ =>
      .ok { statusAt100 with
            SyncInfo := { CatchingUp := false, LatestBlockHeight := "1e3",
                          LatestBlockTime := "" } },
    unmarshalBlock := fun _ => .ok (blockWith "g1abc" "c2ln") }

/-! ## Lemmas on the failover loop -/

section Loop

variable (rpc : Rpc) (endpoint : String) (params : Option (List (String × String)))

theorem loop_nil (i : Nat) :
    gnolandHTTPRequestLoop rpc endpoint params i [] = (.error "no working nodes available", []) := by
  simp [gnolandHTTPRequestLoop]

theorem loop_cons_down (i : Nat) (node : NodeConfig) (rest : List NodeConfig)
    (h : node.down = true) :
    gnolandHTTPRequestLoop rpc endpoint params i (node :: rest)
      = gnolandHTTPRequestLoop rpc endpoint params (i + 1) rest := by
  simp [gnolandHTTPRequestLoop, h]

theorem loop_cons_body (i : Nat) (node : NodeConfig) (rest : List NodeConfig) (b : String)
    (h : node.down = false) (hb : rpc.respond i (buildRequest node endpoint params) = .body b) :
    gnolandHTTPRequestLoop rpc endpoint params i (node :: rest)
      = (.ok b, [(i, buildRequest node endpoint params)]) := by
  simp [gnolandHTTPRequestLoop, h, hb]

/-- A live endpoint whose exchange fails: the loop goes on, and the endpoint is
in the trace unless the request could not even be built. -/
theorem loop_cons_fail (i : Nat) (node : NodeConfig) (rest : List NodeConfig)
    (h : node.down = false)
    (hb : ∀ b, rpc.respond i (buildRequest node endpoint params) ≠ .body b) :
    (gnolandHTTPRequestLoop rpc endpoint params i (node :: rest)).1
        = (gnolandHTTPRequestLoop rpc endpoint params (i + 1) rest).1 ∧
    ((gnolandHTTPRequestLoop rpc endpoint params i (node :: rest)).2
        = (gnolandHTTPRequestLoop rpc endpoint params (i + 1) rest).2 ∨
     (gnolandHTTPRequestLoop rpc endpoint params i (node :: rest)).2
        = (i, buildRequest node endpoint params)
            :: (gnolandHTTPRequestLoop rpc endpoint params (i + 1) rest).2) := by
  cases hr : rpc.respond i (buildRequest node endpoint params) with
  | body b => exact absurd hr (hb b)
  | requestError e => simp [gnolandHTTPRequestLoop, h, hr]
  | transportError e => simp [gnolandHTTPRequestLoop, h, hr]
  | readError e => simp [gnolandHTTPRequestLoop, h, hr]

/-- Every contact of the loop started at position `i` is with a position
`i + k` of a live node of the list, using that node's request. -/
theorem loop_contact (i : Nat) (nodes : List NodeConfig) (c : Contact)
    (hc : c ∈ (gnolandHTTPRequestLoop rpc endpoint params i nodes).2) :
    ∃ k n, c.1 = i + k ∧ nodes[k]? = some n ∧ n.down = false ∧
      c.2 = buildRequest n endpoint params := by
  induction nodes generalizing i with
  | nil => simp [loop_nil] at hc
  | cons node rest ih =>
    have step : c ∈ (gnolandHTTPRequestLoop rpc endpoint params (i + 1) rest).2 →
        ∃ k n, c.1 = i + k ∧ (node :: rest)[k]? = some n ∧ n.down = false ∧
          c.2 = buildRequest n endpoint params := by
      intro h
      obtain ⟨k, n, h1, h2, h3, h4⟩ := ih (i + 1) h
      exact ⟨k + 1, n, by omega, by simpa using h2, h3, h4⟩
    cases hd : node.down with
    | true =>
      rw [loop_cons_down rpc endpoint params i node rest hd] at hc
      exact step hc
    | false =>
      have here : c = (i, buildRequest node endpoint params) →
          ∃ k n, c.1 = i + k ∧ (node :: rest)[k]? = some n ∧ n.down = false ∧
            c.2 = buildRequest n endpoint params := by
        intro h
        exact ⟨0, node, by simp [h], by simp, hd, by simp [h]⟩
      cases hr : rpc.respond i (buildRequest node endpoint params) with
      | body b =>
        rw [loop_cons_body rpc endpoint params i node rest b hd hr] at hc
        exact here (by simpa using hc)
      | requestError e =>
        simp only [gnolandHTTPRequestLoop, hd, hr] at hc
        exact step (by simpa using hc)
      | transportError e =>
        simp only [gnolandHTTPRequestLoop, hd, hr] at hc
        rcases List.mem_cons.mp (by simpa using hc) with h | h
        · exact here h
        · exact step h
      | readError e =>
        simp only [gnolandHTTPRequestLoop, hd, hr] at hc
        rcases List.mem_cons.mp (by simpa using hc) with h | h
        · exact here h
        · exact step h

/-- The contacts of the loop are made at strictly increasing positions. -/
theorem loop_sorted (i : Nat) (nodes : List NodeConfig) :
    List.Pairwise (fun a b : Contact => a.1 < b.1)
      (gnolandHTTPRequestLoop rpc endpoint params i nodes).2 := by
  induction nodes generalizing i with
  | nil => simp [loop_nil]
  | cons node rest ih =>
    have later : ∀ c ∈ (gnolandHTTPRequestLoop rpc endpoint params (i + 1) rest).2,
        i < c.1 := by
      intro c hc
      obtain ⟨k, _, h1, _⟩ := loop_contact rpc endpoint params (i + 1) rest c hc
      omega
    cases hd : node.down with
    | true =>
      rw [loop_cons_down rpc endpoint params i node rest hd]
      exact ih (i + 1)
    | false =>
      cases hr : rpc.respond i (buildRequest node endpoint params) with
      | body b =>
        rw [loop_cons_body rpc endpoint params i node rest b hd hr]
        simp
      | requestError e =>
        simp only [gnolandHTTPRequestLoop, hd, hr]
        simpa using ih (i + 1)
      | transportError e =>
        simp only [gnolandHTTPRequestLoop, hd, hr]
        exact List.pairwise_cons.mpr ⟨fun c hc => later c hc, ih (i + 1)⟩
      | readError e =>
        simp only [gnolandHTTPRequestLoop, hd, hr]
        exact List.pairwise_cons.mpr ⟨fun c hc => later c hc, ih (i + 1)⟩

/-- The loop stops at the first live endpoint whose body is read: it returns
that body, the last contact is with that endpoint, and no contact is with a
later position. -/
theorem loop_first_body (i : Nat) (nodes : List NodeConfig) (k : Nat) (n : NodeConfig)
    (b : String) (hn : nodes[k]? = some n) (hup : n.down = false)
    (hb : rpc.respond (i + k) (buildRequest n endpoint params) = .body b)
    (hfirst : ∀ j m, j < k → nodes[j]? = some m → m.down = false →
      ∀ b1, rpc.respond (i + j) (buildRequest m endpoint params) ≠ .body b1) :
    (gnolandHTTPRequestLoop rpc endpoint params i nodes).1 = .ok b ∧
    (gnolandHTTPRequestLoop rpc endpoint params i nodes).2.getLast?
      = some (i + k, buildRequest n endpoint params) ∧
    ∀ c ∈ (gnolandHTTPRequestLoop rpc endpoint params i nodes).2, c.1 ≤ i + k := by
  induction nodes generalizing i k with
  | nil => simp at hn
  | cons node rest ih =>
    cases k with
    | zero =>
      have hnode : node = n := by simpa using hn
      subst hnode
      rw [loop_cons_body rpc endpoint params i node rest b hup (by simpa using hb)]
      simp
    | succ k =>
      have hn1 : rest[k]? = some n := by simpa using hn
      have hb1 : rpc.respond (i + 1 + k) (buildRequest n endpoint params) = .body b := by
        rw [← hb]; congr 1; omega
      have hfirst1 : ∀ j m, j < k → rest[j]? = some m → m.down = false →
          ∀ b1, rpc.respond (i + 1 + j) (buildRequest m endpoint params) ≠ .body b1 := by
        intro j m hj hm hmd b1
        have := hfirst (j + 1) m (by omega) (by simpa using hm) hmd b1
        rwa [show i + (j + 1) = i + 1 + j by omega] at this
      obtain ⟨r1, r2, r3⟩ := ih (i + 1) k hn1 hb1 hfirst1
      cases hd : node.down with
      | true =>
        rw [loop_cons_down rpc endpoint params i node rest hd]
        exact ⟨r1, by rw [r2]; congr 2; omega, fun c hc => by have := r3 c hc; omega⟩
      | false =>
        have hfail := hfirst 0 node (by omega) (by simp) hd
        obtain ⟨e1, e2⟩ := loop_cons_fail rpc endpoint params i node rest hd
          (by simpa using hfail)
        refine ⟨by rw [e1, r1], ?_, ?_⟩
        · rcases e2 with e2 | e2
          · rw [e2, r2]; congr 2; omega
          · rw [e2, List.getLast?_cons, r2]
            simp only [Option.getD_some]
            congr 2; omega
        · intro c hc
          rcases e2 with e2 | e2
          · rw [e2] at hc
            have := r3 c hc; omega
          · rw [e2] at hc
            rcases List.mem_cons.mp hc with h | h
            · simp [h]
            · have := r3 c h; omega

/-- The loop reaches every live endpoint that precedes the first success: if
no live endpoint before position `k` yields a body and the request for the
live endpoint at `k` can be built, that endpoint is contacted. -/
theorem loop_reaches (i : Nat) (nodes : List NodeConfig) (k : Nat) (n : NodeConfig)
    (hn : nodes[k]? = some n) (hup : n.down = false)
    (hreq : ∀ e, rpc.respond (i + k) (buildRequest n endpoint params) ≠ .requestError e)
    (hfirst : ∀ j m, j < k → nodes[j]? = some m → m.down = false →
      ∀ b1, rpc.respond (i + j) (buildRequest m endpoint params) ≠ .body b1) :
    (i + k, buildRequest n endpoint params)
      ∈ (gnolandHTTPRequestLoop rpc endpoint params i nodes).2 := by
  induction nodes generalizing i k with
  | nil => simp at hn
  | cons node rest ih =>
    cases k with
    | zero =>
      have hnode : node = n := by simpa using hn
      subst hnode
      cases hr : rpc.respond i (buildRequest node endpoint params) with
      | body b => simp [gnolandHTTPRequestLoop, hup, hr]
      | requestError e => exact absurd hr (by simpa using hreq e)
      | transportError e => simp [gnolandHTTPRequestLoop, hup, hr]
      | readError e => simp [gnolandHTTPRequestLoop, hup, hr]
    | succ k =>
      have hn1 : rest[k]? = some n := by simpa using hn
      have hreq1 : ∀ e, rpc.respond (i + 1 + k) (buildRequest n endpoint params)
          ≠ .requestError e := by
        intro e
        have := hreq e
        rwa [show i + (k + 1) = i + 1 + k by omega] at this
      have hfirst1 : ∀ j m, j < k → rest[j]? = some m → m.down = false →
          ∀ b1, rpc.respond (i + 1 + j) (buildRequest m endpoint params) ≠ .body b1 := by
        intro j m hj hm hmd b1
        have := hfirst (j + 1) m (by omega) (by simpa using hm) hmd b1
        rwa [show i + (j + 1) = i + 1 + j by omega] at this
      have r := ih (i + 1) k hn1 hreq1 hfirst1
      rw [show i + 1 + k = i + (k + 1) by omega] at r
      cases hd : node.down with
      | true =>
        rw [loop_cons_down rpc endpoint params i node rest hd]
        exact r
      | false =>
        have hfail := hfirst 0 node (by omega) (by simp) hd
        obtain ⟨_, e2⟩ := loop_cons_fail rpc endpoint params i node rest hd
          (by simpa using hfail)
        rcases e2 with e2 | e2
        · rw [e2]; exact r
        · rw [e2]; exact List.mem_cons_of_mem _ r

/-- With every endpoint down the loop contacts nobody and reports that no node works. -/
theorem loop_all_down (i : Nat) (nodes : List NodeConfig)
    (h : ∀ n ∈ nodes, n.down = true) :
    gnolandHTTPRequestLoop rpc endpoint params i nodes
      = (.error "no working nodes available", []) := by
  induction nodes generalizing i with
  | nil => exact loop_nil rpc endpoint params i
  | cons node rest ih =>
    rw [loop_cons_down rpc endpoint params i node rest (h node (by simp))]
    exact ih (i + 1) (fun n hn => h n (by simp [hn]))

/-- The loop reads of a node only its URL and its down flag: rewriting the
syncing flags changes nothing. -/
theorem loop_syncing_irrelevant (f : NodeConfig → Bool) (i : Nat) (nodes : List NodeConfig) :
    gnolandHTTPRequestLoop rpc endpoint params i
        (nodes.map (fun n => { n with syncing := f n }))
      = gnolandHTTPRequestLoop rpc endpoint params i nodes := by
  induction nodes generalizing i with
  | nil => rfl
  | cons node rest ih =>
    simp only [List.map_cons, gnolandHTTPRequestLoop, buildRequest, ih]

end Loop

/-- The healthy-node count is the number of endpoints neither down nor syncing. -/
theorem countHealthyNodes_eq (nodes : List NodeConfig) (acc : Nat) :
    countHealthyNodes nodes acc
      = acc + (nodes.filter (fun n => !n.down && !n.syncing)).length := by
  induction nodes generalizing acc with
  | nil => simp [countHealthyNodes]
  | cons node rest ih =>
    cases hd : node.down <;> cases hs : node.syncing <;>
      simp [countHealthyNodes, ih, hd, hs]
    omega

/-- The scan returns signed (3) exactly when some precommit carries the
address with a non-empty signature, and missed (0) otherwise. -/
theorem scanPrecommits_spec (addr : String) (l : List GnoPrecommit) :
    (scanPrecommits addr l = 3 ↔
      ∃ p ∈ l, p.ValidatorAddress = addr ∧ p.Signature ≠ "") ∧
    (scanPrecommits addr l = 0 ↔
      ¬ ∃ p ∈ l, p.ValidatorAddress = addr ∧ p.Signature ≠ "") := by
  induction l with
  | nil => simp [scanPrecommits]
  | cons sig rest ih =>
    by_cases h1 : sig.ValidatorAddress = addr
    · by_cases h2 : sig.Signature = ""
      · simp only [scanPrecommits, h1, h2, if_true, ne_eq, not_true_eq_false, if_false, ih,
          List.mem_cons, exists_eq_or_imp, and_false, false_or, and_self]
      · simp [scanPrecommits, h1, h2]
    · simp only [scanPrecommits, h1, if_false, ih, List.mem_cons, exists_eq_or_imp,
        false_and, false_or, and_self]

/-- What gnolandGetStatus does with the outcome of the failover request. -/
theorem gnolandGetStatus_eq (rpc : Rpc) (cc : ChainConfig) :
    gnolandGetStatus rpc cc
      = (match (gnolandHTTPRequest rpc cc "/status" none).1 with
         | .error err => .error err
         | .ok body =>
           match rpc.unmarshalStatus body with
           | .error err => .error ("failed to unmarshal status response: " ++ err)
           | .ok result => .ok result,
         (gnolandHTTPRequest rpc cc "/status" none).2) := by
  unfold gnolandGetStatus
  rcases gnolandHTTPRequest rpc cc "/status" none with ⟨r, tr⟩
  cases r with
  | error err => rfl
  | ok body =>
    dsimp only
    cases h : rpc.unmarshalStatus body <;> rfl

/-- What gnolandGetBlock does with the outcome of the failover request. -/
theorem gnolandGetBlock_eq (rpc : Rpc) (cc : ChainConfig) (height : String) :
    gnolandGetBlock rpc cc height
      = (match (gnolandHTTPRequest rpc cc "/block" (some [("height", height)])).1 with
         | .error err => .error err
         | .ok body =>
           match rpc.unmarshalBlock body with
           | .error err => .error ("failed to unmarshal block response: " ++ err)
           | .ok result => .ok result,
         (gnolandHTTPRequest rpc cc "/block" (some [("height", height)])).2) := by
  unfold gnolandGetBlock
  rcases gnolandHTTPRequest rpc cc "/block" (some [("height", height)]) with ⟨r, tr⟩
  cases r with
  | error err => rfl
  | ok body =>
    dsimp only
    cases h : rpc.unmarshalBlock body <;> rfl

/-- The failover request stops at the first live endpoint whose body is read. -/
theorem gnolandHTTPRequest_stops (rpc : Rpc) (cc : ChainConfig) (endpoint : String)
    (params : Option (List (String × String))) (k : Nat) (n : NodeConfig) (b : String)
    (hn : cc.Nodes[k]? = some n) (hup : n.down = false)
    (hb : rpc.respond k (buildRequest n endpoint params) = .body b)
    (hfirst : ∀ j m, j < k → cc.Nodes[j]? = some m → m.down = false →
      ∀ b1, rpc.respond j (buildRequest m endpoint params) ≠ .body b1) :
    (gnolandHTTPRequest rpc cc endpoint params).1 = .ok b ∧
    (gnolandHTTPRequest rpc cc endpoint params).2.getLast?
      = some (k, buildRequest n endpoint params) ∧
    ∀ c ∈ (gnolandHTTPRequest rpc cc endpoint params).2, c.1 ≤ k := by
  have h := loop_first_body rpc endpoint params 0 cc.Nodes k n b hn hup
    (by rw [Nat.zero_add]; exact hb)
    (by intro j m hj hm hmd b1; rw [Nat.zero_add]; exact hfirst j m hj hm hmd b1)
  simpa [gnolandHTTPRequest] using h

/-! ## Lemmas on the liveness ledger -/

/-- On a chain whose window is still nil, gnolandGetValidatorInfo creates the
window of 512 unknown entries and a ValInfo with Missed = 0 and Window = 100. -/
theorem gnolandGetValidatorInfo_fresh (cc : ChainConfig) (h : cc.blocksResults = none) :
    (∃ w, (gnolandGetValidatorInfo cc).blocksResults = some w ∧ w.length = 512 ∧
      ∀ i, i < 512 → w[i]? = some (-1)) ∧
    ∃ v, (gnolandGetValidatorInfo cc).valInfo = some v ∧ v.Missed = 0 ∧ v.Window = 100 := by
  unfold gnolandGetValidatorInfo
  refine ⟨⟨List.replicate 512 (-1), by simp only [h], List.length_replicate _ _, ?_⟩, ?_⟩
  · intro i hi
    rw [List.getElem?_replicate, if_pos hi]
  · cases hexDecodeString (trimG cc.ValAddress).data with
    | none => exact ⟨_, rfl, rfl, rfl⟩
    | some bytes => exact ⟨_, rfl, rfl, rfl⟩

/-- A list of positive length is not empty. -/
theorem ne_nil_of_length_eq {w : List Int} {n : Nat} (h : w.length = n) (hn : 0 < n) :
    w ≠ [] := by
  intro h0
  rw [h0] at h
  simp at h
  omega

/-- Prepending to a non-empty window and cutting its last entry keeps the length. -/
theorem prepend_take_eq (c : Int) (bs : List Int) (hne : bs ≠ []) :
    c :: bs.take (bs.length - 1) = (c :: bs).take bs.length := by
  cases bs with
  | nil => exact absurd rfl hne
  | cons b rest => simp

/-- One ledger update with a sign status other than missed: only the window changes. -/
theorem recordOutcome_not_missed (cc : ChainConfig) (bs : List Int) (c : Int)
    (hb : cc.blocksResults = some bs) (hne : bs ≠ []) (hc : c ≠ 0) :
    recordOutcome cc c
      = some { cc with blocksResults := some (c :: bs.take (bs.length - 1)) } := by
  cases bs with
  | nil => exact absurd rfl hne
  | cons b rest => simp [recordOutcome, hb, hc]

/-- One ledger update with the missed sign status on an initialised ledger. -/
theorem recordOutcome_missed (cc : ChainConfig) (bs : List Int) (v : ValInfo)
    (hb : cc.blocksResults = some bs) (hne : bs ≠ []) (hv : cc.valInfo = some v) :
    recordOutcome cc 0
      = some { cc with
          blocksResults := some (0 :: bs.take (bs.length - 1)),
          valInfo := some { v with
            Missed := if wrapInt64 (v.Missed + 1) > v.Window then v.Window
                      else wrapInt64 (v.Missed + 1) } } := by
  cases bs with
  | nil => exact absurd rfl hne
  | cons b rest => simp [recordOutcome, hb, hv]

/-- With 0 ≤ Missed ≤ Window = 100 the clamped increment is min (Missed + 1) Window. -/
theorem clamp_eq_min (m w : Int) (h0 : 0 ≤ m) (h1 : m ≤ w) (hw : w = 100) :
    (if wrapInt64 (m + 1) > w then w else wrapInt64 (m + 1)) = min (m + 1) w := by
  unfold wrapInt64
  split <;> omega

/-- One ledger update on an initialised ledger never panics; it prepends the
status to the window, keeps the length, and keeps 0 ≤ Missed ≤ Window. -/
theorem recordOutcome_ok (cc : ChainConfig) (bs : List Int) (v : ValInfo) (c : Int)
    (hb : cc.blocksResults = some bs) (hne : bs ≠ []) (hv : cc.valInfo = some v)
    (h0 : 0 ≤ v.Missed) (h1 : v.Missed ≤ v.Window) (hw : v.Window = 100) :
    ∃ cc1 v1, recordOutcome cc c = some cc1 ∧
      cc1.blocksResults = some ((c :: bs).take bs.length) ∧
      cc1.valInfo = some v1 ∧ 0 ≤ v1.Missed ∧ v1.Missed ≤ v1.Window ∧ v1.Window = 100 ∧
      v.Missed ≤ v1.Missed ∧
      v1.Missed = (if c = 0 then min (v.Missed + 1) v.Window else v.Missed) := by
  by_cases hc : c = 0
  · subst hc
    refine ⟨_, _, recordOutcome_missed cc bs v hb hne hv, ?_, rfl, ?_⟩
    · simp only [prepend_take_eq 0 bs hne]
    · simp only [clamp_eq_min v.Missed v.Window h0 h1 hw, if_true]
      refine ⟨?_, ?_, hw, ?_, trivial⟩ <;> omega
  · refine ⟨_, v, recordOutcome_not_missed cc bs c hb hne hc, ?_, hv, h0, h1, hw,
      le_refl _, by simp only [hc, if_false]⟩
    simp only [prepend_take_eq c bs hne]

/-- Cutting to n entries after appending n entries of another list. -/
theorem take_append_take (n : Nat) (a b : List Int) :
    (a ++ b.take n).take n = (a ++ b).take n := by
  rw [List.take_append_eq_append_take, List.take_append_eq_append_take, List.take_take]
  congr 2
  omega

/-- Any sequence of ledger updates on an initialised ledger runs without panic;
the window is the reversed sequence in front of the old window, cut to the
old length, and 0 ≤ Missed ≤ Window = 100 still holds. -/
theorem recordOutcomes_ok (codes : List Int) (cc : ChainConfig) (bs : List Int) (v : ValInfo)
    (hb : cc.blocksResults = some bs) (hne : bs ≠ []) (hv : cc.valInfo = some v)
    (h0 : 0 ≤ v.Missed) (h1 : v.Missed ≤ v.Window) (hw : v.Window = 100) :
    ∃ cc1 v1, recordOutcomes cc codes = some cc1 ∧
      cc1.blocksResults = some ((codes.reverse ++ bs).take bs.length) ∧
      cc1.valInfo = some v1 ∧ 0 ≤ v1.Missed ∧ v1.Missed ≤ v1.Window ∧ v1.Window = 100 := by
  induction codes generalizing cc bs v with
  | nil => exact ⟨cc, v, rfl, by simpa using hb, hv, h0, h1, hw⟩
  | cons c rest ih =>
    obtain ⟨cc1, v1, e1, b1, hv1, m0, m1, w1, _, _⟩ :=
      recordOutcome_ok cc bs v c hb hne hv h0 h1 hw
    have hlen : ((c :: bs).take bs.length).length = bs.length := by simp
    have hne1 : (c :: bs).take bs.length ≠ [] := by
      intro h
      rw [h] at hlen
      exact hne (List.eq_nil_of_length_eq_zero hlen.symm)
    obtain ⟨cc2, v2, e2, b2, hv2, k0, k1, w2⟩ := ih cc1 _ v1 b1 hne1 hv1 m0 m1 w1
    refine ⟨cc2, v2, ?_, ?_, hv2, k0, k1, w2⟩
    · simp only [recordOutcomes, e1, e2]
    · rw [b2, hlen, take_append_take]
      simp

/-! ## Lemmas on the health prober -/

/-- A string that starts with a non-empty string is not empty. -/
theorem append_ne_empty (a b : String) (h : a ≠ "") : a ++ b ≠ "" := by
  intro h1
  have h2 := congrArg String.length h1
  simp only [String.length_append] at h2
  apply h
  apply String.ext
  have h3 : a.data.length = 0 := by
    have : a.length = 0 := by
      have : ("" : String).length = 0 := rfl
      omega
    exact this
  exact List.eq_nil_of_length_eq_zero h3

/-- A failing probe marks the node down with some non-empty message and leaves
noNodes alone. -/
theorem probe_fails (rpc : Rpc) (now : Int) (cc : ChainConfig) (i : Nat) (node : NodeConfig)
    (hp : ProbeFails rpc i node) :
    ∃ msg, msg ≠ "" ∧
      (gnolandHealthCheckNode rpc now cc i node).1 = markDown node now msg ∧
      (gnolandHealthCheckNode rpc now cc i node).2.1 = cc.noNodes := by
  have hmsg : ∀ tail err : String,
      "❌ " ++ cc.name ++ " node " ++ node.Url ++ tail ++ err ≠ "" := by
    intro tail err
    repeat apply append_ne_empty
    decide
  cases hr : rpc.respond i (buildRequest node "/status" none) with
  | requestError err =>
    exact ⟨_, hmsg " is down: " err, by simp [gnolandHealthCheckNode, hr],
      by simp [gnolandHealthCheckNode, hr]⟩
  | transportError err =>
    exact ⟨_, hmsg " is down: " err, by simp [gnolandHealthCheckNode, hr],
      by simp [gnolandHealthCheckNode, hr]⟩
  | readError err =>
    exact ⟨_, hmsg " is down: " err, by simp [gnolandHealthCheckNode, hr],
      by simp [gnolandHealthCheckNode, hr]⟩
  | body b =>
    obtain ⟨err, he⟩ := hp b hr
    exact ⟨_, hmsg " response error: " err, by simp [gnolandHealthCheckNode, hr, he],
      by simp [gnolandHealthCheckNode, hr, he]⟩

/-! ## RPC gateway: theorems -/

/-- C1: gnolandHTTPRequest contacts endpoints at strictly increasing list
positions; every contact is with an endpoint whose down flag is not set, using
that endpoint's request; for the first non-down endpoint whose body is read
(position k), the call returns that body, every non-down endpoint before k
whose request could be built was contacted, the last contact is with k and no
contact is with a position after k.  In particular, with two endpoints of which
the first is down and the second answers, the only contact is with the second
and its body is returned. -/
theorem gnolandHTTPRequest_first_success (rpc : Rpc) (cc : ChainConfig) (endpoint : String)
    (params : Option (List (String × String))) :
    List.Pairwise (fun a b : Contact => a.1 < b.1)
      (gnolandHTTPRequest rpc cc endpoint params).2 ∧
    (∀ c ∈ (gnolandHTTPRequest rpc cc endpoint params).2,
      ∃ n, cc.Nodes[c.1]? = some n ∧ n.down = false ∧
        c.2 = buildRequest n endpoint params) ∧
    (∀ k n b, cc.Nodes[k]? = some n → n.down = false →
      rpc.respond k (buildRequest n endpoint params) = .body b →
      (∀ j m, j < k → cc.Nodes[j]? = some m → m.down = false →
        ∀ b1, rpc.respond j (buildRequest m endpoint params) ≠ .body b1) →
      (gnolandHTTPRequest rpc cc endpoint params).1 = .ok b ∧
      (∀ j m, j < k → cc.Nodes[j]? = some m → m.down = false →
        (∀ e, rpc.respond j (buildRequest m endpoint params) ≠ .requestError e) →
        (j, buildRequest m endpoint params) ∈ (gnolandHTTPRequest rpc cc endpoint params).2) ∧
      (gnolandHTTPRequest rpc cc endpoint params).2.getLast?
        = some (k, buildRequest n endpoint params) ∧
      ∀ c ∈ (gnolandHTTPRequest rpc cc endpoint params).2, c.1 ≤ k) ∧
    (∀ n1 n2 b, cc.Nodes = [n1, n2] → n1.down = true → n2.down = false →
      rpc.respond 1 (buildRequest n2 endpoint params) = .body b →
      gnolandHTTPRequest rpc cc endpoint params
        = (.ok b, [(1, buildRequest n2 endpoint params)])) := by
  refine ⟨loop_sorted rpc endpoint params 0 cc.Nodes, ?_, ?_, ?_⟩
  · intro c hc
    obtain ⟨k, n, h1, h2, h3, h4⟩ := loop_contact rpc endpoint params 0 cc.Nodes c hc
    refine ⟨n, ?_, h3, h4⟩
    rw [h1, Nat.zero_add]
    exact h2
  · intro k n b hn hup hb hfirst
    have hb0 : rpc.respond (0 + k) (buildRequest n endpoint params) = .body b := by
      rw [Nat.zero_add]; exact hb
    have hfirst0 : ∀ j m, j < k → cc.Nodes[j]? = some m → m.down = false →
        ∀ b1, rpc.respond (0 + j) (buildRequest m endpoint params) ≠ .body b1 := by
      intro j m hj hm hmd b1
      rw [Nat.zero_add]; exact hfirst j m hj hm hmd b1
    obtain ⟨r1, r2, r3⟩ := loop_first_body rpc endpoint params 0 cc.Nodes k n b hn hup hb0 hfirst0
    refine ⟨r1, ?_, ?_, ?_⟩
    · intro j m hj hm hmd hreq
      have := loop_reaches rpc endpoint params 0 cc.Nodes j m hm hmd
        (by intro e; rw [Nat.zero_add]; exact hreq e)
        (by
          intro j1 m1 hj1 hm1 hmd1 b1
          rw [Nat.zero_add]; exact hfirst j1 m1 (by omega) hm1 hmd1 b1)
      rwa [Nat.zero_add] at this
    · rw [Nat.zero_add] at r2; exact r2
    · intro c hc
      have := r3 c hc
      omega
  · intro n1 n2 b hnodes h1 h2 hb
    unfold gnolandHTTPRequest
    rw [hnodes, loop_cons_down rpc endpoint params 0 n1 [n2] h1,
      loop_cons_body rpc endpoint params (0 + 1) n2 [] b h2 hb]

/-- Witness for C1: two endpoints, the first down; only the second is contacted
and its body "ok" is returned. -/
theorem gnolandHTTPRequest_first_success_witness :
    twoNodesFirstDown.Nodes = [mkNode "http://a/" true, mkNode "http://b" false] ∧
    gnolandHTTPRequest rpcAllOk twoNodesFirstDown "/status" none
      = (.ok "ok", [(1, { url := "http://b/status", params := none })]) :=
  ⟨rfl, (gnolandHTTPRequest_first_success rpcAllOk twoNodesFirstDown "/status" none).2.2.2
    (mkNode "http://a/" true) (mkNode "http://b" false) "ok" rfl rfl rfl rfl⟩

/-- C2: when every endpoint is down (the empty list included), gnolandHTTPRequest
and gnolandGetStatus fail with the error "no working nodes available" and
contact no endpoint. -/
theorem gnolandGetStatus_all_down (rpc : Rpc) (cc : ChainConfig)
    (h : ∀ n ∈ cc.Nodes, n.down = true) :
    gnolandHTTPRequest rpc cc "/status" none = (.error "no working nodes available", []) ∧
    gnolandGetStatus rpc cc = (.error "no working nodes available", []) := by
  have h1 : gnolandHTTPRequest rpc cc "/status" none
      = (.error "no working nodes available", []) :=
    loop_all_down rpc "/status" none 0 cc.Nodes h
  exact ⟨h1, by simp only [gnolandGetStatus, h1]⟩

/-- Witness for C2: two endpoints, both down, on a network that would answer. -/
theorem gnolandGetStatus_all_down_witness :
    (∀ n ∈ twoNodesDown.Nodes, n.down = true) ∧
    gnolandGetStatus rpcAllOk twoNodesDown = (.error "no working nodes available", []) :=
  ⟨by decide, (gnolandGetStatus_all_down rpcAllOk twoNodesDown (by decide)).2⟩

/-- C3, counterexample: two live endpoints; the first answers with a body that
does not decode, the second with a body that decodes.  gnolandGetStatus and
gnolandGetBlock both return an unmarshal error after contacting the first
endpoint only. -/
theorem gnolandGet_decode_failure_counterexample :
    twoNodesUp.Nodes.map (fun n => n.down) = [false, false] ∧
    rpcFirstGarbled.unmarshalBlock "" = .error "unexpected end of JSON input" ∧
    rpcFirstGarbled.unmarshalBlock "good" = .ok (blockWith "g1abc" "c2ln") ∧
    rpcFirstGarbled.respond 0 (buildRequest (mkNode "http://a/" false) "/status" none)
      = .body "" ∧
    rpcFirstGarbled.unmarshalStatus "" = .error "unexpected end of JSON input" ∧
    rpcFirstGarbled.respond 1 (buildRequest (mkNode "http://b" false) "/status" none)
      = .body "good" ∧
    rpcFirstGarbled.unmarshalStatus "good" = .ok statusAt100 ∧
    gnolandGetStatus rpcFirstGarbled twoNodesUp
      = (.error "failed to unmarshal status response: unexpected end of JSON input",
         [(0, { url := "http://a/status", params := none })]) ∧
    (gnolandGetStatus rpcFirstGarbled twoNodesUp).1 ≠ .ok statusAt100 ∧
    gnolandGetBlock rpcFirstGarbled twoNodesUp "101"
      = (.error "failed to unmarshal block response: unexpected end of JSON input",
         [(0, { url := "http://a/block", params := some [("height", "101")] })]) := by
  decide

/-- C3, amended: only transport-level failures make the gateway fail over.
When the first live endpoint whose body is read (position k) answers with a
body that does not decode, gnolandGetStatus (and likewise gnolandGetBlock)
returns the unmarshal error, its last contact is with k and it contacts no
endpoint after k, whatever the later endpoints would have answered. -/
theorem gnolandGet_decode_failure_is_final (rpc : Rpc) (cc : ChainConfig) (height : String)
    (k : Nat) (n : NodeConfig) (b e : String)
    (hn : cc.Nodes[k]? = some n) (hup : n.down = false) :
    (rpc.respond k (buildRequest n "/status" none) = .body b →
      (∀ j m, j < k → cc.Nodes[j]? = some m → m.down = false →
        ∀ b1, rpc.respond j (buildRequest m "/status" none) ≠ .body b1) →
      rpc.unmarshalStatus b = .error e →
      (gnolandGetStatus rpc cc).1 = .error ("failed to unmarshal status response: " ++ e) ∧
      (gnolandGetStatus rpc cc).2.getLast? = some (k, buildRequest n "/status" none) ∧
      ∀ c ∈ (gnolandGetStatus rpc cc).2, c.1 ≤ k) ∧
    (rpc.respond k (buildRequest n "/block" (some [("height", height)])) = .body b →
      (∀ j m, j < k → cc.Nodes[j]? = some m → m.down = false →
        ∀ b1, rpc.respond j (buildRequest m "/block" (some [("height", height)])) ≠ .body b1) →
      rpc.unmarshalBlock b = .error e →
      (gnolandGetBlock rpc cc height).1
        = .error ("failed to unmarshal block response: " ++ e) ∧
      (gnolandGetBlock rpc cc height).2.getLast?
        = some (k, buildRequest n "/block" (some [("height", height)])) ∧
      ∀ c ∈ (gnolandGetBlock rpc cc height).2, c.1 ≤ k) := by
  constructor
  · intro hb hfirst hdec
    obtain ⟨r1, r2, r3⟩ := gnolandHTTPRequest_stops rpc cc "/status" none k n b hn hup hb hfirst
    rw [gnolandGetStatus_eq]
    refine ⟨?_, r2, r3⟩
    simp only [r1, hdec]
  · intro hb hfirst hdec
    obtain ⟨r1, r2, r3⟩ := gnolandHTTPRequest_stops rpc cc "/block" (some [("height", height)])
      k n b hn hup hb hfirst
    rw [gnolandGetBlock_eq]
    refine ⟨?_, r2, r3⟩
    simp only [r1, hdec]

/-- Witness for C3, amended: the first of two live endpoints answers with an
empty body; the status call ends with the unmarshal error and never goes past
position 0. -/
theorem gnolandGet_decode_failure_is_final_witness :
    twoNodesUp.Nodes[0]? = some (mkNode "http://a/" false) ∧
    (gnolandGetStatus rpcFirstGarbled twoNodesUp).1
      = .error ("failed to unmarshal status response: " ++ "unexpected end of JSON input") ∧
    (gnolandGetStatus rpcFirstGarbled twoNodesUp).2.getLast?
      = some (0, buildRequest (mkNode "http://a/" false) "/status" none) ∧
    ∀ c ∈ (gnolandGetStatus rpcFirstGarbled twoNodesUp).2, c.1 ≤ 0 :=
  ⟨rfl, (gnolandGet_decode_failure_is_final rpcFirstGarbled twoNodesUp "101" 0
    (mkNode "http://a/" false) "" "unexpected end of JSON input" rfl rfl).1 rfl
    (fun j _ hj => absurd hj (Nat.not_lt_zero j)) rfl⟩

/-- C4, counterexample: an endpoint with syncing set and down not set is
contacted by the failover request, although the healthy-node count leaves it out. -/
theorem failover_contacts_syncing_counterexample :
    oneNodeSyncing.Nodes[0]?.map (fun n => (n.syncing, n.down)) = some (true, false) ∧
    (gnolandHTTPRequest rpcAllOk oneNodeSyncing "/status" none).2
      = [(0, { url := "http://a/status", params := none })] ∧
    countHealthyNodes oneNodeSyncing.Nodes 0 = 0 := by
  decide

/-- C4, amended: the failover request is gated by the down flag alone.  Every
contact is with an endpoint that is not down; an endpoint that is down (so also
a syncing endpoint that was marked down) is never contacted; the syncing
flags have no influence on the request; and the healthy-node count is the
number of endpoints that are neither down nor syncing. -/
theorem failover_gated_by_down_only (rpc : Rpc) (cc : ChainConfig) (endpoint : String)
    (params : Option (List (String × String))) :
    (∀ c ∈ (gnolandHTTPRequest rpc cc endpoint params).2,
      ∃ n, cc.Nodes[c.1]? = some n ∧ n.down = false) ∧
    (∀ k n, cc.Nodes[k]? = some n → n.down = true →
      ∀ c ∈ (gnolandHTTPRequest rpc cc endpoint params).2, c.1 ≠ k) ∧
    (∀ f : NodeConfig → Bool,
      gnolandHTTPRequest rpc
          { cc with Nodes := cc.Nodes.map (fun n => { n with syncing := f n }) } endpoint params
        = gnolandHTTPRequest rpc cc endpoint params) ∧
    countHealthyNodes cc.Nodes 0
      = (cc.Nodes.filter (fun n => !n.down && !n.syncing)).length := by
  have hlive : ∀ c ∈ (gnolandHTTPRequest rpc cc endpoint params).2,
      ∃ n, cc.Nodes[c.1]? = some n ∧ n.down = false := by
    intro c hc
    obtain ⟨k, n, h1, h2, h3, _⟩ := loop_contact rpc endpoint params 0 cc.Nodes c hc
    refine ⟨n, ?_, h3⟩
    rw [h1, Nat.zero_add]
    exact h2
  refine ⟨hlive, ?_, ?_, ?_⟩
  · intro k n hn hdown c hc hck
    obtain ⟨m, hm, hmd⟩ := hlive c hc
    rw [hck, hn] at hm
    cases hm
    rw [hdown] at hmd
    cases hmd
  · intro f
    exact loop_syncing_irrelevant rpc endpoint params f 0 cc.Nodes
  · rw [countHealthyNodes_eq, Nat.zero_add]

/-- Witness for C4, amended: in the registry whose first endpoint is down, no
contact is with position 0. -/
theorem failover_gated_by_down_only_witness :
    twoNodesFirstDown.Nodes[0]? = some (mkNode "http://a/" true) ∧
    ∀ c ∈ (gnolandHTTPRequest rpcAllOk twoNodesFirstDown "/status" none).2, c.1 ≠ 0 :=
  ⟨rfl, (failover_gated_by_down_only rpcAllOk twoNodesFirstDown "/status" none).2.1 0
    (mkNode "http://a/" true) rfl rfl⟩

/-- C5: gnolandCheckValidatorSigned returns signed (3) exactly when the block
was fetched and some precommit has the configured validator address and a
non-empty signature; unknown (-1) exactly when the block fetch failed; and
missed (0) exactly when the block was fetched and no precommit matches with a
non-empty signature. -/
theorem gnolandCheckValidatorSigned_spec (rpc : Rpc) (cc : ChainConfig) (height : String) :
    ((gnolandCheckValidatorSigned rpc cc height).1 = 3 ↔
      ∃ block, (gnolandGetBlock rpc cc height).1 = .ok block ∧
        ∃ p ∈ block.Block.LastCommit.Precommits,
          p.ValidatorAddress = cc.ValAddress ∧ p.Signature ≠ "") ∧
    ((gnolandCheckValidatorSigned rpc cc height).1 = -1 ↔
      ∃ err, (gnolandGetBlock rpc cc height).1 = .error err) ∧
    ((gnolandCheckValidatorSigned rpc cc height).1 = 0 ↔
      ∃ block, (gnolandGetBlock rpc cc height).1 = .ok block ∧
        ¬ ∃ p ∈ block.Block.LastCommit.Precommits,
          p.ValidatorAddress = cc.ValAddress ∧ p.Signature ≠ "") ∧
    (gnolandCheckValidatorSigned rpc cc height).2 = (gnolandGetBlock rpc cc height).2 := by
  unfold gnolandCheckValidatorSigned
  rcases gnolandGetBlock rpc cc height with ⟨r, tr⟩
  cases r with
  | error err => simp
  | ok block =>
    have h := scanPrecommits_spec cc.ValAddress block.Block.LastCommit.Precommits
    have h3 : scanPrecommits cc.ValAddress block.Block.LastCommit.Precommits ≠ -1 := by
      intro hneg
      by_cases hex : ∃ p ∈ block.Block.LastCommit.Precommits,
          p.ValidatorAddress = cc.ValAddress ∧ p.Signature ≠ ""
      · rw [h.1.mpr hex] at hneg; cases hneg
      · rw [h.2.mpr hex] at hneg; cases hneg
    simp only [Except.ok.injEq, exists_eq_left', h.1, h.2, h3, false_iff, not_exists,
      and_true, true_and]
    simp

/-! ## Liveness ledger: theorems -/

/-- C6: starting from the window created by gnolandGetValidatorInfo, any
sequence of ledger updates runs without panic and leaves a window of exactly
512 entries whose entry 0 is the most recently recorded outcome (when at least
one was recorded). -/
theorem livenessWindow_length_512 (cc : ChainConfig) (codes : List Int)
    (h : cc.blocksResults = none) :
    ∃ cc1 bs, recordOutcomes (gnolandGetValidatorInfo cc) codes = some cc1 ∧
      cc1.blocksResults = some bs ∧ bs.length = 512 ∧
      ∀ c, codes.getLast? = some c → bs[0]? = some c := by
  obtain ⟨⟨w, hb, hlen, _⟩, v, hv, hm, hw⟩ := gnolandGetValidatorInfo_fresh cc h
  obtain ⟨cc1, v1, e1, b1, _⟩ := recordOutcomes_ok codes (gnolandGetValidatorInfo cc)
    w v hb (ne_nil_of_length_eq hlen (by decide)) hv (by omega) (by omega) hw
  refine ⟨cc1, _, e1, b1, ?_, ?_⟩
  · rw [List.length_take, List.length_append, hlen]
    omega
  · intro c hc
    obtain ⟨init, rfl⟩ := List.getLast?_eq_some_iff.mp hc
    rw [hlen, List.getElem?_take_of_lt (by decide)]
    simp

/-- Witness for C6: three outcomes recorded on a fresh chain. -/
theorem livenessWindow_length_512_witness :
    freshChain.blocksResults = none ∧
    ∃ cc1 bs, recordOutcomes (gnolandGetValidatorInfo freshChain) [3, 0, -1] = some cc1 ∧
      cc1.blocksResults = some bs ∧ bs.length = 512 ∧
      ∀ c, [3, 0, -1].getLast? = some c → bs[0]? = some c :=
  ⟨rfl, livenessWindow_length_512 freshChain [3, 0, -1] rfl⟩

/-- C7: after recording the outcomes codes[0], ..., codes[k-1] in that order
(k ≤ 512) on a freshly initialised window, entry i is codes[k-1-i] for every
i < k and every entry from k to 511 is unknown (-1); and on every initialised
ledger with a window w of length at least 1, one update with status c yields
exactly c followed by all entries of w but the last (for the missed status
the update dereferences ValInfo, which must then be present). -/
theorem livenessWindow_most_recent_first (cc : ChainConfig) (codes : List Int)
    (h : cc.blocksResults = none) (hk : codes.length ≤ 512) :
    (∃ cc1 bs, recordOutcomes (gnolandGetValidatorInfo cc) codes = some cc1 ∧
      cc1.blocksResults = some bs ∧
      (∀ i, i < codes.length → bs[i]? = codes[codes.length - 1 - i]?) ∧
      (∀ i, codes.length ≤ i → i < 512 → bs[i]? = some (-1))) ∧
    (∀ (st : ChainConfig) (w : List Int) (c : Int), st.blocksResults = some w →
      1 ≤ w.length → (c = 0 → st.valInfo ≠ none) →
      ∃ st1, recordOutcome st c = some st1 ∧
        st1.blocksResults = some (c :: w.take (w.length - 1))) := by
  constructor
  · obtain ⟨⟨w, hb, hlen, hfill⟩, v, hv, hm, hw⟩ := gnolandGetValidatorInfo_fresh cc h
    obtain ⟨cc1, v1, e1, b1, _⟩ := recordOutcomes_ok codes (gnolandGetValidatorInfo cc)
      w v hb (ne_nil_of_length_eq hlen (by decide)) hv (by omega) (by omega) hw
    refine ⟨cc1, _, e1, b1, ?_, ?_⟩
    · intro i hi
      rw [hlen, List.getElem?_take_of_lt (by omega),
        List.getElem?_append_left (by simpa using hi), List.getElem?_reverse hi]
    · intro i hi1 hi2
      rw [hlen, List.getElem?_take_of_lt hi2,
        List.getElem?_append_right (by simpa using hi1), List.length_reverse]
      exact hfill _ (by omega)
  · intro st w c hw hlen hv
    have hne : w ≠ [] := ne_nil_of_length_eq rfl hlen
    by_cases hc : c = 0
    · obtain ⟨v, hv1⟩ := Option.ne_none_iff_exists'.mp (hv hc)
      subst hc
      exact ⟨_, recordOutcome_missed st w v hw hne hv1, rfl⟩
    · exact ⟨_, recordOutcome_not_missed st w c hw hne hc, rfl⟩

/-- Witness for C7: signed then missed recorded on a fresh chain. -/
theorem livenessWindow_most_recent_first_witness :
    freshChain.blocksResults = none ∧ [(3 : Int), 0].length ≤ 512 ∧
    ∃ cc1 bs, recordOutcomes (gnolandGetValidatorInfo freshChain) [3, 0] = some cc1 ∧
      cc1.blocksResults = some bs ∧
      (∀ i, i < [(3 : Int), 0].length → bs[i]? = [(3 : Int), 0][[(3 : Int), 0].length - 1 - i]?) ∧
      (∀ i, [(3 : Int), 0].length ≤ i → i < 512 → bs[i]? = some (-1)) :=
  ⟨rfl, by decide,
    (livenessWindow_most_recent_first freshChain [3, 0] rfl (by decide)).1⟩

/-- C8: in every state reached from gnolandGetValidatorInfo's initialisation
(Missed = 0, Window = 100) by any sequence of ledger updates, 0 ≤ Missed ≤
Window; and a further update with the missed status runs without panic and
yields Missed = min (Missed + 1) Window, which is not smaller than before,
with Window unchanged. -/
theorem missed_bounded_by_window (cc : ChainConfig) (codes : List Int)
    (h : cc.blocksResults = none) :
    ∃ cc1 v, recordOutcomes (gnolandGetValidatorInfo cc) codes = some cc1 ∧
      cc1.valInfo = some v ∧ 0 ≤ v.Missed ∧ v.Missed ≤ v.Window ∧
      ∃ cc2 v2, recordOutcome cc1 0 = some cc2 ∧ cc2.valInfo = some v2 ∧
        v2.Missed = min (v.Missed + 1) v.Window ∧ v.Missed ≤ v2.Missed ∧
        v2.Missed ≤ v2.Window ∧ v2.Window = v.Window := by
  obtain ⟨⟨w, hb, hlen, _⟩, v, hv, hm, hw⟩ := gnolandGetValidatorInfo_fresh cc h
  obtain ⟨cc1, v1, e1, b1, hv1, m0, m1, w1⟩ := recordOutcomes_ok codes
    (gnolandGetValidatorInfo cc) w v hb (ne_nil_of_length_eq hlen (by decide)) hv
    (by omega) (by omega) hw
  have hne : (codes.reverse ++ w).take w.length ≠ [] := by
    refine ne_nil_of_length_eq (n := 512) ?_ (by decide)
    rw [List.length_take, List.length_append, hlen]
    omega
  obtain ⟨cc2, v2, e2, _, hv2, _, k1, w2, kmono, kmin⟩ :=
    recordOutcome_ok cc1 _ v1 0 b1 hne hv1 m0 m1 w1
  refine ⟨cc1, v1, e1, hv1, m0, m1, cc2, v2, e2, hv2, ?_, kmono, k1, by omega⟩
  simpa using kmin

/-- Witness for C8: a fresh chain after three missed blocks. -/
theorem missed_bounded_by_window_witness :
    freshChain.blocksResults = none ∧
    ∃ cc1 v, recordOutcomes (gnolandGetValidatorInfo freshChain) [0, 0, 0] = some cc1 ∧
      cc1.valInfo = some v ∧ 0 ≤ v.Missed ∧ v.Missed ≤ v.Window ∧
      ∃ cc2 v2, recordOutcome cc1 0 = some cc2 ∧ cc2.valInfo = some v2 ∧
        v2.Missed = min (v.Missed + 1) v.Window ∧ v.Missed ≤ v2.Missed ∧
        v2.Missed ≤ v2.Window ∧ v2.Window = v.Window :=
  ⟨rfl, missed_bounded_by_window freshChain [0, 0, 0] rfl⟩

/-- C9: on every ledger state with a non-empty window, an update with the
signed status (3) runs without panic, changes nothing but the window, so
ValInfo (Missed and Window included) is unchanged, and entry 0 of the new
window is 3. -/
theorem recordOutcome_signed_keeps_missed (cc : ChainConfig) (bs : List Int)
    (hb : cc.blocksResults = some bs) (hne : bs ≠ []) :
    ∃ cc1 bs1, recordOutcome cc 3 = some cc1 ∧
      cc1 = { cc with blocksResults := some bs1 } ∧
      cc1.valInfo = cc.valInfo ∧
      (∀ v, cc.valInfo = some v →
        ∃ v1, cc1.valInfo = some v1 ∧ v1.Missed = v.Missed ∧ v1.Window = v.Window) ∧
      bs1[0]? = some 3 ∧ bs1.length = bs.length := by
  refine ⟨_, 3 :: bs.take (bs.length - 1),
    recordOutcome_not_missed cc bs 3 hb hne (by decide), rfl, rfl, ?_,
    List.getElem?_cons_zero, ?_⟩
  · intro v hv
    exact ⟨v, hv, rfl, rfl⟩
  · have : 1 ≤ bs.length := List.length_pos.mpr hne
    simp only [List.length_cons, List.length_take]
    omega

/-- Witness for C9: a signed block on the freshly initialised ledger. -/
theorem recordOutcome_signed_keeps_missed_witness :
    (gnolandGetValidatorInfo freshChain).blocksResults = some (List.replicate 512 (-1)) ∧
    List.replicate 512 (-1 : Int) ≠ [] ∧
    ∃ cc1 bs1, recordOutcome (gnolandGetValidatorInfo freshChain) 3 = some cc1 ∧
      cc1 = { gnolandGetValidatorInfo freshChain with blocksResults := some bs1 } ∧
      cc1.valInfo = (gnolandGetValidatorInfo freshChain).valInfo ∧
      (∀ v, (gnolandGetValidatorInfo freshChain).valInfo = some v →
        ∃ v1, cc1.valInfo = some v1 ∧ v1.Missed = v.Missed ∧ v1.Window = v.Window) ∧
      bs1[0]? = some 3 ∧ bs1.length = (List.replicate 512 (-1 : Int)).length :=
  ⟨rfl, by decide,
    recordOutcome_signed_keeps_missed (gnolandGetValidatorInfo freshChain)
      (List.replicate 512 (-1)) rfl (by decide)⟩

/-! ## Health prober: theorems -/

/-- C10: one probe of the health prober on one endpoint.  A probe that fails
(the request cannot be built, transport or read fails, or the body does not
decode) on an endpoint that is not down sets down, sets downSince to the probe
time and records a non-empty message, touching nothing else.  A probe that
succeeds and reports not catching up on an endpoint that is down clears down
and syncing, resets downSince to the epoch, sets wasDown, clears the message
and clears the chain-level noNodes flag.  So a failing probe followed by such a
successful one ends with down cleared, downSince reset and wasDown set.  In
the registry the probed entry is replaced by the probed node and every other
entry is untouched. -/
theorem gnolandHealthCheck_transitions (rpc : Rpc) (now : Int) (cc : ChainConfig) (i : Nat)
    (node : NodeConfig) :
    (node.down = false → ProbeFails rpc i node →
      (gnolandHealthCheckNode rpc now cc i node).1.down = true ∧
      (gnolandHealthCheckNode rpc now cc i node).1.downSince = now ∧
      (gnolandHealthCheckNode rpc now cc i node).1.lastMsg ≠ "" ∧
      (gnolandHealthCheckNode rpc now cc i node).1.Url = node.Url ∧
      (gnolandHealthCheckNode rpc now cc i node).1.syncing = node.syncing ∧
      (gnolandHealthCheckNode rpc now cc i node).1.wasDown = node.wasDown ∧
      (gnolandHealthCheckNode rpc now cc i node).2.1 = cc.noNodes) ∧
    (node.down = true → ProbeHealthy rpc i node →
      (gnolandHealthCheckNode rpc now cc i node).1
        = { node with down := false, syncing := false, downSince := 0, wasDown := true,
                      lastMsg := "" } ∧
      (gnolandHealthCheckNode rpc now cc i node).2.1 = false) ∧
    (∀ (rpc2 : Rpc) (now2 : Int) (cc2 : ChainConfig),
      node.down = false → ProbeFails rpc i node → ProbeHealthy rpc2 i node →
      (gnolandHealthCheckNode rpc2 now2 cc2 i (gnolandHealthCheckNode rpc now cc i node).1).1
        = { node with down := false, syncing := false, downSince := 0, wasDown := true,
                      lastMsg := "" } ∧
      (gnolandHealthCheckNode rpc2 now2 cc2 i
        (gnolandHealthCheckNode rpc now cc i node).1).2.1 = false) ∧
    (cc.Nodes[i]? = some node →
      (gnolandHealthCheckAt rpc now cc i).Nodes[i]?
        = some (gnolandHealthCheckNode rpc now cc i node).1 ∧
      (gnolandHealthCheckAt rpc now cc i).noNodes
        = (gnolandHealthCheckNode rpc now cc i node).2.1 ∧
      ∀ j, j ≠ i → (gnolandHealthCheckAt rpc now cc i).Nodes[j]? = cc.Nodes[j]?) := by
  have hfail := probe_fails rpc now cc i node
  have hheal : ∀ (r : Rpc) (t : Int) (c : ChainConfig) (n : NodeConfig),
      n.down = true → ProbeHealthy r i n →
      (gnolandHealthCheckNode r t c i n).1
        = { n with down := false, syncing := false, downSince := 0, wasDown := true,
                   lastMsg := "" } ∧
      (gnolandHealthCheckNode r t c i n).2.1 = false := by
    intro r t c n hd hp
    obtain ⟨b, st, hb, hst, hcu⟩ := hp
    simp [gnolandHealthCheckNode, hb, hst, hcu, hd]
  refine ⟨fun hd hp => ?_, hheal rpc now cc node, ?_, ?_⟩
  · obtain ⟨msg, hmsg, hnode, hno⟩ := hfail hp
    rw [hnode, hno]
    simp [markDown, hd, hmsg]
  · intro rpc2 now2 cc2 hd hp1 hp2
    obtain ⟨msg, hmsg, hnode, hno⟩ := hfail hp1
    have hdown : (gnolandHealthCheckNode rpc now cc i node).1.down = true := by
      rw [hnode]; simp [markDown, hd]
    have hurl : (gnolandHealthCheckNode rpc now cc i node).1.Url = node.Url := by
      rw [hnode]; simp [markDown, hd]
    have hp2b : ProbeHealthy rpc2 i (gnolandHealthCheckNode rpc now cc i node).1 := by
      obtain ⟨b, st, hb, hst, hcu⟩ := hp2
      exact ⟨b, st, by simpa [buildRequest, hurl] using hb, hst, hcu⟩
    obtain ⟨r1, r2⟩ := hheal rpc2 now2 cc2 _ hdown hp2b
    refine ⟨?_, r2⟩
    rw [r1, hnode]
    simp [markDown, hd]
  · intro hn
    have hi : i < cc.Nodes.length := by
      by_contra hlt
      rw [List.getElem?_eq_none (by omega)] at hn
      cases hn
    refine ⟨?_, ?_, ?_⟩
    · simp [gnolandHealthCheckAt, hn, List.getElem?_set_self, hi]
    · simp [gnolandHealthCheckAt, hn]
    · intro j hj
      simp only [gnolandHealthCheckAt, hn]
      rw [List.getElem?_set_ne (Ne.symm hj)]

/-- Witness for C10: a live endpoint probed at time 77 on an unreachable
network goes down with downSince = 77. -/
theorem gnolandHealthCheck_transitions_witness :
    (mkNode "http://a/" false).down = false ∧
    ProbeFails rpcAllDead 0 (mkNode "http://a/" false) ∧
    (gnolandHealthCheckNode rpcAllDead 77 freshChain 0 (mkNode "http://a/" false)).1.down = true ∧
    (gnolandHealthCheckNode rpcAllDead 77 freshChain 0 (mkNode "http://a/" false)).1.downSince
      = 77 :=
  have hp : ProbeFails rpcAllDead 0 (mkNode "http://a/" false) := fun _ hb => by cases hb
  have h := (gnolandHealthCheck_transitions rpcAllDead 77 freshChain 0
    (mkNode "http://a/" false)).1 rfl hp
  ⟨rfl, hp, h.1, h.2.1⟩

/-! ## Lemmas on the failover request and the chain state -/

/-- The loop that carries the registry computes the result and the contacts of
gnolandHTTPRequestLoop from position `done.length`, and hands back the
registry `done ++ todo` it was given. -/
theorem gnolandHTTPRequestRunLoop_eq (rpc : Rpc) (endpoint : String)
    (params : Option (List (String × String))) (todo done : List NodeConfig) :
    gnolandHTTPRequestRunLoop rpc endpoint params done todo
      = (gnolandHTTPRequestLoop rpc endpoint params done.length todo, done ++ todo) := by
  induction todo generalizing done with
  | nil => simp [gnolandHTTPRequestRunLoop, gnolandHTTPRequestLoop]
  | cons node rest ih =>
    have hlen : (done ++ [node]).length = done.length + 1 := by simp
    have happ : done ++ [node] ++ rest = done ++ node :: rest := by simp
    cases hd : node.down with
    | true =>
      simp only [gnolandHTTPRequestRunLoop, gnolandHTTPRequestLoop, hd, if_true, ih, hlen, happ]
    | false =>
      cases hr : rpc.respond done.length (buildRequest node endpoint params) with
      | requestError e =>
        simp [gnolandHTTPRequestRunLoop, gnolandHTTPRequestLoop, hd, hr, ih]
      | transportError e =>
        simp [gnolandHTTPRequestRunLoop, gnolandHTTPRequestLoop, hd, hr, ih]
      | readError e =>
        simp [gnolandHTTPRequestRunLoop, gnolandHTTPRequestLoop, hd, hr, ih]
      | body b =>
        simp [gnolandHTTPRequestRunLoop, gnolandHTTPRequestLoop, hd, hr]

/-- gnolandHTTPRequest returns what the failover loop computes and leaves the
chain state as it was. -/
theorem gnolandHTTPRequestRun_eq (rpc : Rpc) (cc : ChainConfig) (endpoint : String)
    (params : Option (List (String × String))) :
    gnolandHTTPRequestRun rpc cc endpoint params
      = (gnolandHTTPRequest rpc cc endpoint params, cc) := by
  simp only [gnolandHTTPRequestRun, gnolandHTTPRequest,
    gnolandHTTPRequestRunLoop_eq rpc endpoint params cc.Nodes [], List.length_nil,
    List.nil_append]

/-- gnolandGetStatus leaves the chain state as it was. -/
theorem gnolandGetStatusRun_eq (rpc : Rpc) (cc : ChainConfig) :
    gnolandGetStatusRun rpc cc = (gnolandGetStatus rpc cc, cc) := by
  unfold gnolandGetStatusRun gnolandGetStatus
  rw [gnolandHTTPRequestRun_eq]
  rcases gnolandHTTPRequest rpc cc "/status" none with ⟨r, tr⟩
  cases r with
  | error err => rfl
  | ok body =>
    dsimp only
    cases h : rpc.unmarshalStatus body <;> rfl

/-- gnolandGetBlock leaves the chain state as it was. -/
theorem gnolandGetBlockRun_eq (rpc : Rpc) (cc : ChainConfig) (height : String) :
    gnolandGetBlockRun rpc cc height = (gnolandGetBlock rpc cc height, cc) := by
  unfold gnolandGetBlockRun gnolandGetBlock
  rw [gnolandHTTPRequestRun_eq]
  rcases gnolandHTTPRequest rpc cc "/block" (some [("height", height)]) with ⟨r, tr⟩
  cases r with
  | error err => rfl
  | ok body =>
    dsimp only
    cases h : rpc.unmarshalBlock body <;> rfl

/-! ## Lemmas on connect -/

/-- The failover loop walks past a prefix of down endpoints without a contact. -/
theorem loop_skip_down (rpc : Rpc) (endpoint : String)
    (params : Option (List (String × String))) (i : Nat) (done l : List NodeConfig)
    (h : ∀ n ∈ done, n.down = true) :
    gnolandHTTPRequestLoop rpc endpoint params i (done ++ l)
      = gnolandHTTPRequestLoop rpc endpoint params (i + done.length) l := by
  induction done generalizing i with
  | nil => rfl
  | cons d rest ih =>
    rw [List.cons_append, loop_cons_down rpc endpoint params i d (rest ++ l) (h d (by simp)),
      ih (i + 1) (fun n hn => h n (by simp [hn])), List.length_cons]
    congr 1
    omega

/-- A body returned by the failover loop is the body some live endpoint of the
list answered. -/
theorem loop_ok_source (rpc : Rpc) (endpoint : String)
    (params : Option (List (String × String))) (i : Nat) (nodes : List NodeConfig) (b : String)
    (h : (gnolandHTTPRequestLoop rpc endpoint params i nodes).1 = .ok b) :
    ∃ k n, nodes[k]? = some n ∧ n.down = false ∧
      rpc.respond (i + k) (buildRequest n endpoint params) = .body b := by
  induction nodes generalizing i with
  | nil => simp [loop_nil] at h
  | cons node rest ih =>
    have step : (gnolandHTTPRequestLoop rpc endpoint params (i + 1) rest).1 = .ok b →
        ∃ k n, (node :: rest)[k]? = some n ∧ n.down = false ∧
          rpc.respond (i + k) (buildRequest n endpoint params) = .body b := by
      intro h1
      obtain ⟨k, n, h2, h3, h4⟩ := ih (i + 1) h1
      exact ⟨k + 1, n, by simpa using h2, h3, by rw [← h4]; congr 1; omega⟩
    cases hd : node.down with
    | true =>
      rw [loop_cons_down rpc endpoint params i node rest hd] at h
      exact step h
    | false =>
      cases hr : rpc.respond i (buildRequest node endpoint params) with
      | body b1 =>
        rw [loop_cons_body rpc endpoint params i node rest b1 hd hr] at h
        have hb : b1 = b := Except.ok.inj h
        exact ⟨0, node, by simp, hd, by rw [Nat.add_zero, hr, hb]⟩
      | requestError e =>
        simp only [gnolandHTTPRequestLoop, hd, hr] at h
        exact step (by simpa using h)
      | transportError e =>
        simp only [gnolandHTTPRequestLoop, hd, hr] at h
        exact step (by simpa using h)
      | readError e =>
        simp only [gnolandHTTPRequestLoop, hd, hr] at h
        exact step (by simpa using h)

/-- What ownStatus = some st means. -/
theorem ownStatus_eq_some (rpc : Rpc) (i : Nat) (node : NodeConfig) (st : GnoStatus) :
    ownStatus rpc i node = some st ↔
      ∃ b, rpc.respond i (buildRequest node "/status" none) = .body b ∧
        rpc.unmarshalStatus b = .ok st := by
  unfold ownStatus
  cases hr : rpc.respond i (buildRequest node "/status" none) with
  | body b =>
    cases hu : rpc.unmarshalStatus b with
    | ok st1 => simp [hu]
    | error e => simp [hu]
  | requestError e => simp
  | transportError e => simp
  | readError e => simp

/-- During connect the visited prefix is down, so a status gnolandGetStatus
obtains is the own status of a live endpoint among those still to visit. -/
theorem gnolandGetStatus_source (rpc : Rpc) (cc : ChainConfig) (done todo : List NodeConfig)
    (st : GnoStatus) (hdone : ∀ n ∈ done, n.down = true)
    (h : (gnolandGetStatus rpc { cc with Nodes := done ++ todo }).1 = .ok st) :
    ∃ k n, todo[k]? = some n ∧ n.down = false ∧ ownStatus rpc (done.length + k) n = some st := by
  rw [gnolandGetStatus_eq] at h
  simp only [gnolandHTTPRequest] at h
  rw [loop_skip_down rpc "/status" none 0 done todo hdone, Nat.zero_add] at h
  cases hr : (gnolandHTTPRequestLoop rpc "/status" none done.length todo).1 with
  | error e => simp [hr] at h
  | ok b =>
    obtain ⟨k, n, h1, h2, h3⟩ := loop_ok_source rpc "/status" none done.length todo b hr
    refine ⟨k, n, h1, h2, (ownStatus_eq_some rpc _ n st).mpr ⟨b, h3, ?_⟩⟩
    simp only [hr] at h
    cases hu : rpc.unmarshalStatus b with
    | error e => simp [hu] at h
    | ok st1 =>
      simp only [hu, Except.ok.injEq] at h
      rw [h]

/-- During connect, a live endpoint that answers for itself is the one
gnolandGetStatus reaches: the status obtained is its own and it is the only
endpoint contacted. -/
theorem gnolandGetStatus_own (rpc : Rpc) (cc : ChainConfig) (done rest : List NodeConfig)
    (endpoint : NodeConfig) (st : GnoStatus) (hdone : ∀ n ∈ done, n.down = true)
    (hup : endpoint.down = false) (hown : ownStatus rpc done.length endpoint = some st) :
    gnolandGetStatus rpc { cc with Nodes := done ++ endpoint :: rest }
      = (.ok st, [(done.length, buildRequest endpoint "/status" none)]) := by
  obtain ⟨b, hb, hu⟩ := (ownStatus_eq_some rpc _ endpoint st).mp hown
  rw [gnolandGetStatus_eq]
  simp only [gnolandHTTPRequest]
  rw [loop_skip_down rpc "/status" none 0 done _ hdone, Nat.zero_add,
    loop_cons_body rpc "/status" none done.length endpoint rest b hup hb]
  simp only [hu]

/-- One visit of the connect loop.  Either the endpoint is left behind down (as
it was when it was down already, otherwise marked down with a non-empty message
because the status call failed, the chain id differs, or the chain id matches
and the node is catching up, in which case syncing is set too) and the loop
goes on; or the endpoint was live, the status obtained passes the checks, and
the loop returns at this position with the endpoint marked not down, not syncing. -/
theorem gnolandNewRpcLoop_step (rpc : Rpc) (cc : ChainConfig) (done rest : List NodeConfig)
    (endpoint : NodeConfig) :
    (∃ m tr, m.down = true ∧
      (endpoint.down = true → m = endpoint ∧ tr = []) ∧
      (endpoint.down = false →
        tr = (gnolandGetStatus rpc { cc with Nodes := done ++ endpoint :: rest }).2 ∧
        m.lastMsg ≠ "" ∧
        ((m = { endpoint with down := true, lastMsg := m.lastMsg } ∧
            ∀ st, (gnolandGetStatus rpc { cc with Nodes := done ++ endpoint :: rest }).1 = .ok st →
              st.NodeInfo.Network ≠ cc.ChainId) ∨
         (m = { endpoint with down := true, syncing := true, lastMsg := m.lastMsg } ∧
            ∃ st, (gnolandGetStatus rpc { cc with Nodes := done ++ endpoint :: rest }).1 = .ok st ∧
              st.NodeInfo.Network = cc.ChainId ∧ st.SyncInfo.CatchingUp = true))) ∧
      gnolandNewRpcLoop rpc cc done (endpoint :: rest)
        = ((gnolandNewRpcLoop rpc cc (done ++ [m]) rest).1,
           (gnolandNewRpcLoop rpc cc (done ++ [m]) rest).2.1,
           tr ++ (gnolandNewRpcLoop rpc cc (done ++ [m]) rest).2.2)) ∨
    (endpoint.down = false ∧
      ∃ st, (gnolandGetStatus rpc { cc with Nodes := done ++ endpoint :: rest }).1 = .ok st ∧
        PassesChecks cc st ∧
        gnolandNewRpcLoop rpc cc done (endpoint :: rest)
          = (some done.length,
             done ++ { endpoint with down := false, syncing := false } :: rest,
             (gnolandGetStatus rpc { cc with Nodes := done ++ endpoint :: rest }).2)) := by
  cases hd : endpoint.down with
  | true =>
    left
    exact ⟨endpoint, [], hd, fun _ => ⟨rfl, rfl⟩, fun h => absurd h (by decide),
      by simp [gnolandNewRpcLoop, hd]⟩
  | false =>
    cases hs : (gnolandGetStatus rpc { cc with Nodes := done ++ endpoint :: rest }).1 with
    | error err =>
      left
      refine ⟨{ endpoint with
          down := true,
          lastMsg := "❌ could not get status for " ++ cc.name ++ ": " ++ err }, _, rfl,
        fun h => absurd h (by decide), fun _ => ⟨rfl, ?_, Or.inl ⟨rfl, fun st h => (by cases h)⟩⟩, ?_⟩
      · repeat apply append_ne_empty
        decide
      · simp [gnolandNewRpcLoop, hd, hs]
    | ok st =>
      by_cases hn : st.NodeInfo.Network = cc.ChainId
      · cases hc : st.SyncInfo.CatchingUp with
        | true =>
          left
          refine ⟨{ endpoint with
              down := true, syncing := true,
              lastMsg := "🐢 node is not synced, skipping " ++ endpoint.Url }, _, rfl,
            fun h => absurd h (by decide), fun _ => ⟨rfl, ?_, Or.inr ⟨rfl, st, rfl, hn, hc⟩⟩, ?_⟩
          · repeat apply append_ne_empty
            decide
          · simp [gnolandNewRpcLoop, hd, hs, hn, hc]
        | false =>
          right
          exact ⟨rfl, st, rfl, ⟨hn, hc⟩, by simp [gnolandNewRpcLoop, hd, hs, hn, hc]⟩
      · left
        refine ⟨{ endpoint with
            down := true,
            lastMsg := "chain id " ++ st.NodeInfo.Network ++ " on " ++ endpoint.Url
              ++ " does not match, expected " ++ cc.ChainId }, _, rfl,
          fun h => absurd h (by decide), fun _ => ⟨rfl, ?_, Or.inl ⟨rfl, fun st1 h => ?_⟩⟩, ?_⟩
        · repeat apply append_ne_empty
          decide
        · cases h
          exact hn
        · simp [gnolandNewRpcLoop, hd, hs, hn]

/-- Connect on a registry whose visited prefix is down, whose next endpoints
`pre` are live and answer for themselves with a status that fails a check, and
whose endpoint `nk` after them is live and answers with a passing status:
the loop returns at `nk`, every endpoint of `pre` is left down with a message
(syncing set exactly when its chain id matched), `nk` is marked not down and
not syncing, and the endpoints after `nk` are as before. -/
theorem gnolandNewRpcLoop_first_pass (rpc : Rpc) (cc : ChainConfig) (pre : List NodeConfig)
    (done post : List NodeConfig) (nk : NodeConfig)
    (hdone : ∀ n ∈ done, n.down = true)
    (hpre : ∀ j n, pre[j]? = some n → n.down = false ∧
      ∃ st, ownStatus rpc (done.length + j) n = some st ∧ ¬ PassesChecks cc st)
    (hup : nk.down = false)
    (hk : ∃ st, ownStatus rpc (done.length + pre.length) nk = some st ∧ PassesChecks cc st) :
    ∃ pre1, (gnolandNewRpcLoop rpc cc done (pre ++ nk :: post)).1
        = some (done.length + pre.length) ∧
      (gnolandNewRpcLoop rpc cc done (pre ++ nk :: post)).2.1
        = done ++ pre1 ++ { nk with down := false, syncing := false } :: post ∧
      pre1.length = pre.length ∧
      ∀ j n, pre[j]? = some n →
        ∃ st m, ownStatus rpc (done.length + j) n = some st ∧ pre1[j]? = some m ∧
          m.lastMsg ≠ "" ∧
          m = { n with
                down := true,
                syncing := if st.NodeInfo.Network = cc.ChainId then true else n.syncing,
                lastMsg := m.lastMsg } := by
  induction pre generalizing done with
  | nil =>
    obtain ⟨st, hown, hnet, hcu⟩ := hk
    have hs := gnolandGetStatus_own rpc cc done post nk st hdone hup
      (by simpa using hown)
    refine ⟨[], ?_, ?_, rfl, fun j n h => by simp at h⟩
    · simp [gnolandNewRpcLoop, hup, hs, hnet, hcu]
    · simp [gnolandNewRpcLoop, hup, hs, hnet, hcu]
  | cons n pre0 ih =>
    obtain ⟨hnd, st, hown, hfail⟩ := hpre 0 n (by simp)
    have hs := gnolandGetStatus_own rpc cc done (pre0 ++ nk :: post) n st hdone hnd
      (by simpa using hown)
    obtain ⟨m, tr, hmd, _, hlive, hloop⟩ :=
      (gnolandNewRpcLoop_step rpc cc done (pre0 ++ nk :: post) n).resolve_right
        (by
          rintro ⟨_, st1, h1, hp, _⟩
          rw [hs] at h1
          cases h1
          exact hfail hp)
    obtain ⟨_, hmsg, hm⟩ := hlive hnd
    have hm1 : m = { n with
        down := true,
        syncing := if st.NodeInfo.Network = cc.ChainId then true else n.syncing,
        lastMsg := m.lastMsg } := by
      rcases hm with ⟨e, hne⟩ | ⟨e, st1, h1, hnet, _⟩
      · have := hne st (by rw [hs])
        rw [if_neg this]
        exact e
      · rw [hs] at h1
        cases h1
        rw [if_pos hnet]
        exact e
    have hdone1 : ∀ x ∈ done ++ [m], x.down = true := by
      intro x hx
      rcases List.mem_append.mp hx with h | h
      · exact hdone x h
      · rw [List.mem_singleton.mp h]
        exact hmd
    have hlen : (done ++ [m]).length = done.length + 1 := by simp
    obtain ⟨pre1, r1, r2, r3, r4⟩ := ih (done ++ [m]) hdone1
      (by
        intro j x hx
        have := hpre (j + 1) x (by simpa using hx)
        rwa [hlen, show done.length + 1 + j = done.length + (j + 1) by omega])
      (by
        obtain ⟨stk, h1, h2⟩ := hk
        refine ⟨stk, ?_, h2⟩
        rw [hlen, ← h1]
        congr 1
        simp only [List.length_cons]
        omega)
    refine ⟨m :: pre1, ?_, ?_, by simp [r3], ?_⟩
    · rw [List.cons_append, hloop]
      simp only [r1, hlen, List.length_cons]
      congr 1
      omega
    · rw [List.cons_append, hloop]
      simp only [r2]
      simp
    · intro j x hx
      cases j with
      | zero =>
        have hxn : n = x := by simpa using hx
        subst hxn
        exact ⟨st, m, hown, by simp, hmsg, hm1⟩
      | succ j =>
        obtain ⟨st1, m1, h1, h2, h3, h4⟩ := r4 j x (by simpa using hx)
        refine ⟨st1, m1, ?_, by simpa using h2, h3, h4⟩
        rw [← h1, hlen]
        congr 1
        omega

/-- The connect loop keeps the number of endpoints. -/
theorem gnolandNewRpcLoop_length (rpc : Rpc) (cc : ChainConfig) (todo done : List NodeConfig) :
    (gnolandNewRpcLoop rpc cc done todo).2.1.length = done.length + todo.length := by
  induction todo generalizing done with
  | nil => simp [gnolandNewRpcLoop]
  | cons endpoint rest ih =>
    rcases gnolandNewRpcLoop_step rpc cc done rest endpoint with
      ⟨m, tr, _, _, _, hloop⟩ | ⟨_, st, _, _, hloop⟩
    · rw [hloop]
      simp only [ih, List.length_append, List.length_cons, List.length_nil]
      omega
    · rw [hloop]
      simp

/-- When the connect loop runs out, every endpoint is down. -/
theorem gnolandNewRpcLoop_none_all_down (rpc : Rpc) (cc : ChainConfig)
    (todo done : List NodeConfig) (hdone : ∀ n ∈ done, n.down = true)
    (h : (gnolandNewRpcLoop rpc cc done todo).1 = none) :
    ∀ n ∈ (gnolandNewRpcLoop rpc cc done todo).2.1, n.down = true := by
  induction todo generalizing done with
  | nil => simpa [gnolandNewRpcLoop] using hdone
  | cons endpoint rest ih =>
    rcases gnolandNewRpcLoop_step rpc cc done rest endpoint with
      ⟨m, tr, hmd, _, _, hloop⟩ | ⟨_, st, _, _, hloop⟩
    · rw [hloop] at h ⊢
      refine ih (done ++ [m]) ?_ h
      intro x hx
      rcases List.mem_append.mp hx with hx | hx
      · exact hdone x hx
      · rw [List.mem_singleton.mp hx]
        exact hmd
    · rw [hloop] at h
      cases h

/-- When no endpoint still to visit passes the checks itself, the connect loop
runs out. -/
theorem gnolandNewRpcLoop_no_pass (rpc : Rpc) (cc : ChainConfig) (todo done : List NodeConfig)
    (hdone : ∀ n ∈ done, n.down = true)
    (hno : ∀ k n, todo[k]? = some n → ¬ EndpointPasses rpc cc (done.length + k) n) :
    (gnolandNewRpcLoop rpc cc done todo).1 = none := by
  induction todo generalizing done with
  | nil => simp [gnolandNewRpcLoop]
  | cons endpoint rest ih =>
    rcases gnolandNewRpcLoop_step rpc cc done rest endpoint with
      ⟨m, tr, hmd, _, _, hloop⟩ | ⟨_, st, hst, hpass, _⟩
    · rw [hloop]
      refine ih (done ++ [m]) ?_ ?_
      · intro x hx
        rcases List.mem_append.mp hx with hx | hx
        · exact hdone x hx
        · rw [List.mem_singleton.mp hx]
          exact hmd
      · intro k n hn
        have := hno (k + 1) n (by simpa using hn)
        rwa [show (done ++ [m]).length + k = done.length + (k + 1) by
          simp only [List.length_append, List.length_cons, List.length_nil]; omega]
    · obtain ⟨k, n, h1, h2, h3⟩ := gnolandGetStatus_source rpc cc done (endpoint :: rest) st
        hdone hst
      exact absurd ⟨h2, st, h3, hpass⟩ (hno k n h1)

/-- The connect loop keeps the endpoint invariant: a down endpoint carries a message. -/
theorem gnolandNewRpcLoop_downHasMsg (rpc : Rpc) (cc : ChainConfig)
    (todo done : List NodeConfig) (hdone : DownHasMsg done) (htodo : DownHasMsg todo) :
    DownHasMsg (gnolandNewRpcLoop rpc cc done todo).2.1 := by
  induction todo generalizing done with
  | nil => simpa [gnolandNewRpcLoop] using hdone
  | cons endpoint rest ih =>
    have hrest : DownHasMsg rest := fun n hn => htodo n (by simp [hn])
    rcases gnolandNewRpcLoop_step rpc cc done rest endpoint with
      ⟨m, tr, hmd, hwas, hlive, hloop⟩ | ⟨_, st, _, _, hloop⟩
    · rw [hloop]
      refine ih (done ++ [m]) ?_ hrest
      intro x hx hxd
      rcases List.mem_append.mp hx with hx | hx
      · exact hdone x hx hxd
      · rw [List.mem_singleton.mp hx]
        cases hd : endpoint.down with
        | true =>
          rw [(hwas hd).1]
          exact htodo endpoint (by simp) hd
        | false => exact (hlive hd).2.1
    · rw [hloop]
      intro x hx hxd
      rcases List.mem_append.mp hx with hx | hx
      · exact hdone x hx hxd
      · rcases List.mem_cons.mp hx with hx | hx
        · rw [hx] at hxd
          cases hxd
        · exact hrest x hx hxd

/-- One probe keeps the endpoint invariant on the probed node. -/
theorem gnolandHealthCheckNode_downHasMsg (rpc : Rpc) (now : Int) (cc : ChainConfig) (i : Nat)
    (node : NodeConfig) (h : node.down = true → node.lastMsg ≠ "") :
    (gnolandHealthCheckNode rpc now cc i node).1.down = true →
      (gnolandHealthCheckNode rpc now cc i node).1.lastMsg ≠ "" := by
  have hmark : ∀ msg, msg ≠ "" →
      (markDown node now msg).down = true → (markDown node now msg).lastMsg ≠ "" := by
    intro msg hmsg
    cases hd : node.down with
    | true => simpa [markDown, hd] using h hd
    | false => simpa [markDown, hd] using hmsg
  have hmsg : ∀ tail err : String,
      "❌ " ++ cc.name ++ " node " ++ node.Url ++ tail ++ err ≠ "" := by
    intro tail err
    repeat apply append_ne_empty
    decide
  cases hr : rpc.respond i (buildRequest node "/status" none) with
  | requestError err =>
    simpa [gnolandHealthCheckNode, hr] using hmark _ (hmsg " is down: " err)
  | transportError err =>
    simpa [gnolandHealthCheckNode, hr] using hmark _ (hmsg " is down: " err)
  | readError err =>
    simpa [gnolandHealthCheckNode, hr] using hmark _ (hmsg " is down: " err)
  | body b =>
    cases hu : rpc.unmarshalStatus b with
    | error err =>
      simpa [gnolandHealthCheckNode, hr, hu] using hmark _ (hmsg " response error: " err)
    | ok st =>
      cases hc : st.SyncInfo.CatchingUp with
      | true =>
        intro _
        have : "🐢 " ++ cc.name ++ " node " ++ node.Url ++ " is syncing" ≠ "" := by
          repeat apply append_ne_empty
          decide
        simpa [gnolandHealthCheckNode, hr, hu, hc] using this
      | false =>
        intro hdown
        simp [gnolandHealthCheckNode, hr, hu, hc] at hdown

/-- A probe that does not find its endpoint healthy leaves a down endpoint down. -/
theorem gnolandHealthCheckNode_stays_down (rpc : Rpc) (now : Int) (cc : ChainConfig) (i : Nat)
    (node : NodeConfig) (hd : node.down = true) (hp : ¬ ProbeHealthy rpc i node) :
    (gnolandHealthCheckNode rpc now cc i node).1.down = true := by
  cases hr : rpc.respond i (buildRequest node "/status" none) with
  | requestError err => simp [gnolandHealthCheckNode, hr, markDown, hd]
  | transportError err => simp [gnolandHealthCheckNode, hr, markDown, hd]
  | readError err => simp [gnolandHealthCheckNode, hr, markDown, hd]
  | body b =>
    cases hu : rpc.unmarshalStatus b with
    | error err => simp [gnolandHealthCheckNode, hr, hu, markDown, hd]
    | ok st =>
      cases hc : st.SyncInfo.CatchingUp with
      | true => simp [gnolandHealthCheckNode, hr, hu, hc, hd]
      | false => exact absurd ⟨b, st, hr, hu, hc⟩ hp

/-- What gnolandNewRpc returns when its loop runs out. -/
theorem gnolandNewRpc_of_none (rpc : Rpc) (enableDash : Bool) (cc : ChainConfig)
    (h : (gnolandNewRpcLoop rpc cc [] cc.Nodes).1 = none) :
    gnolandNewRpc rpc enableDash cc
      = { err := some ("no usable Gnoland endpoints available for " ++ cc.ChainId),
          cc := { cc with
            Nodes := (gnolandNewRpcLoop rpc cc [] cc.Nodes).2.1, noNodes := true,
            lastError := "no usable Gnoland endpoints available for " ++ cc.ChainId },
          accepted := none,
          contacts := (gnolandNewRpcLoop rpc cc [] cc.Nodes).2.2,
          snapshots :=
            if enableDash then
              [{ MsgType := "status", Name := cc.name, ChainId := cc.ChainId,
                 Moniker := "Unknown", Bonded := false, Jailed := false, Tombstoned := false,
                 Missed := 0, Window := 0, Nodes := cc.Nodes.length, HealthyNodes := 0,
                 ActiveAlerts := 1, Height := 0,
                 LastError := "no usable Gnoland endpoints available for " ++ cc.ChainId,
                 Blocks := cc.blocksResults }]
            else [] } := by
  have hlen := gnolandNewRpcLoop_length rpc cc cc.Nodes []
  unfold gnolandNewRpc
  rcases hl : gnolandNewRpcLoop rpc cc [] cc.Nodes with ⟨acc, nodes, tr⟩
  rw [hl] at h hlen
  simp only at h hlen
  subst h
  simp only [List.length_nil, Nat.zero_add] at hlen
  simp only [hlen]

/-- What gnolandNewRpc returns when its loop returns at position `i`. -/
theorem gnolandNewRpc_of_some (rpc : Rpc) (enableDash : Bool) (cc : ChainConfig) (i : Nat)
    (h : (gnolandNewRpcLoop rpc cc [] cc.Nodes).1 = some i) :
    gnolandNewRpc rpc enableDash cc
      = { err := none,
          cc := { cc with Nodes := (gnolandNewRpcLoop rpc cc [] cc.Nodes).2.1, noNodes := false },
          accepted := some i,
          contacts := (gnolandNewRpcLoop rpc cc [] cc.Nodes).2.2,
          snapshots := [] } := by
  unfold gnolandNewRpc
  rcases hl : gnolandNewRpcLoop rpc cc [] cc.Nodes with ⟨acc, nodes, tr⟩
  rw [hl] at h
  simp only at h
  subst h
  rfl

/-- gnolandNewRpc returns an error exactly when its loop runs out. -/
theorem gnolandNewRpc_err_iff (rpc : Rpc) (enableDash : Bool) (cc : ChainConfig) :
    (gnolandNewRpc rpc enableDash cc).err ≠ none ↔
      (gnolandNewRpcLoop rpc cc [] cc.Nodes).1 = none := by
  cases h : (gnolandNewRpcLoop rpc cc [] cc.Nodes).1 with
  | none => simp [gnolandNewRpc_of_none rpc enableDash cc h]
  | some i => simp [gnolandNewRpc_of_some rpc enableDash cc i h]

/-! ## Connect: theorems -/

/-- C11, the code at the failing input: two live endpoints, the first cannot be
reached, the second reports a healthy status on the configured chain.
gnolandNewRpc returns nil at position 0: it leaves endpoint 0 not down and not
syncing, although endpoint 0 did not answer and the status checked was the one
endpoint 1 returned to the failover request. -/
theorem gnolandNewRpc_accepts_silent_endpoint :
    twoNodesUp.Nodes = [mkNode "http://a/" false, mkNode "http://b" false] ∧
    rpcFirstDead.respond 0 (buildRequest (mkNode "http://a/" false) "/status" none)
      = .transportError "connection refused" ∧
    ownStatus rpcFirstDead 0 (mkNode "http://a/" false) = none ∧
    ownStatus rpcFirstDead 1 (mkNode "http://b" false) = some statusAt100 ∧
    (gnolandNewRpc rpcFirstDead true twoNodesUp).err = none ∧
    (gnolandNewRpc rpcFirstDead true twoNodesUp).accepted = some 0 ∧
    (gnolandNewRpc rpcFirstDead true twoNodesUp).cc.Nodes
      = [mkNode "http://a/" false, mkNode "http://b" false] ∧
    (gnolandNewRpc rpcFirstDead true twoNodesUp).cc.noNodes = false ∧
    (gnolandNewRpc rpcFirstDead true twoNodesUp).contacts
      = [(0, { url := "http://a/status", params := none }),
         (1, { url := "http://b/status", params := none })] := by
  decide

/-- C12, counterexample: two live endpoints that both answer with a decodable
status; endpoint 0 reports another chain id and catching up, endpoint 1 passes.
Connect accepts endpoint 1 and marks endpoint 0 down, but does not set its
syncing flag although it was catching up. -/
theorem gnolandNewRpc_syncing_counterexample :
    (∀ n ∈ twoNodesUp.Nodes, n.down = false) ∧
    ownStatus rpcMismatchAndSyncing 0 (mkNode "http://a/" false)
      = some (statusOf "other-chain" true) ∧
    (statusOf "other-chain" true).SyncInfo.CatchingUp = true ∧
    ¬ PassesChecks twoNodesUp (statusOf "other-chain" true) ∧
    ownStatus rpcMismatchAndSyncing 1 (mkNode "http://b" false) = some statusAt100 ∧
    PassesChecks twoNodesUp statusAt100 ∧
    (gnolandNewRpc rpcMismatchAndSyncing true twoNodesUp).err = none ∧
    (gnolandNewRpc rpcMismatchAndSyncing true twoNodesUp).accepted = some 1 ∧
    (gnolandNewRpc rpcMismatchAndSyncing true twoNodesUp).cc.Nodes[0]?.map
      (fun n => (n.down, n.syncing)) = some (true, false) := by
  decide

/-- C12, amended: when the registry is `pre ++ nk :: post`, every endpoint of
`pre` is not down and answers with a decodable status that fails a check, and
`nk` is not down and answers with a status that passes, gnolandNewRpc returns
nil at `nk`, sets noNodes to false and sends no snapshot; every endpoint of
`pre` ends down with a non-empty message, with syncing set when its chain id
matched (so it was rejected for catching up) and syncing as before when its
chain id differed; `nk` ends not down and not syncing; `post` is untouched. -/
theorem gnolandNewRpc_first_passing (rpc : Rpc) (enableDash : Bool) (cc : ChainConfig)
    (pre post : List NodeConfig) (nk : NodeConfig)
    (hnodes : cc.Nodes = pre ++ nk :: post)
    (hpre : ∀ j n, pre[j]? = some n → n.down = false ∧
      ∃ st, ownStatus rpc j n = some st ∧ ¬ PassesChecks cc st)
    (hup : nk.down = false)
    (hk : ∃ st, ownStatus rpc pre.length nk = some st ∧ PassesChecks cc st) :
    (gnolandNewRpc rpc enableDash cc).err = none ∧
    (gnolandNewRpc rpc enableDash cc).accepted = some pre.length ∧
    (gnolandNewRpc rpc enableDash cc).cc.noNodes = false ∧
    (gnolandNewRpc rpc enableDash cc).snapshots = [] ∧
    ∃ pre1, (gnolandNewRpc rpc enableDash cc).cc.Nodes
        = pre1 ++ { nk with down := false, syncing := false } :: post ∧
      pre1.length = pre.length ∧
      ∀ j n, pre[j]? = some n →
        ∃ st m, ownStatus rpc j n = some st ∧ pre1[j]? = some m ∧
          m.down = true ∧ m.lastMsg ≠ "" ∧
          (st.NodeInfo.Network = cc.ChainId → st.SyncInfo.CatchingUp = true ∧ m.syncing = true) ∧
          (st.NodeInfo.Network ≠ cc.ChainId → m.syncing = n.syncing) ∧
          m.Url = n.Url ∧ m.downSince = n.downSince ∧ m.wasDown = n.wasDown := by
  obtain ⟨pre1, r1, r2, r3, r4⟩ := gnolandNewRpcLoop_first_pass rpc cc pre [] post nk
    (by simp) (by simpa using hpre) hup (by simpa using hk)
  have hloop : gnolandNewRpcLoop rpc cc [] cc.Nodes
      = (some pre.length, pre1 ++ { nk with down := false, syncing := false } :: post,
         (gnolandNewRpcLoop rpc cc [] cc.Nodes).2.2) := by
    rw [hnodes]
    refine Prod.ext ?_ (Prod.ext ?_ rfl)
    · simpa using r1
    · simpa using r2
  unfold gnolandNewRpc
  rw [hloop]
  refine ⟨rfl, rfl, rfl, rfl, pre1, rfl, r3, ?_⟩
  intro j n hn
  obtain ⟨st, m, h1, h2, h3, h4⟩ := r4 j n hn
  obtain ⟨_, st0, h5, hfail⟩ := hpre j n hn
  have hst : st0 = st := by
    simp only [List.length_nil, Nat.zero_add] at h1
    rw [h5] at h1
    exact Option.some.inj h1
  subst hst
  refine ⟨st0, m, h5, h2, by rw [h4], h3, ?_, ?_, by rw [h4], by rw [h4], by rw [h4]⟩
  · intro hnet
    refine ⟨?_, by rw [h4, if_pos hnet]⟩
    cases hc : st0.SyncInfo.CatchingUp with
    | true => rfl
    | false => exact absurd ⟨hnet, hc⟩ hfail
  · intro hnet
    rw [h4, if_neg hnet]

/-- Witness for C12, amended: three live endpoints, the first on another chain,
the second catching up, the third healthy; connect returns nil at position 2
with noNodes false, endpoints 0 and 1 down and syncing set on endpoint 1 only. -/
theorem gnolandNewRpc_first_passing_witness :
    threeNodesUp.Nodes
      = [mkNode "http://a/" false, mkNode "http://b" false] ++ mkNode "http://c" false :: [] ∧
    (gnolandNewRpc rpcMismatchSyncingHealthy true threeNodesUp).err = none ∧
    (gnolandNewRpc rpcMismatchSyncingHealthy true threeNodesUp).accepted = some 2 ∧
    (gnolandNewRpc rpcMismatchSyncingHealthy true threeNodesUp).cc.noNodes = false ∧
    (gnolandNewRpc rpcMismatchSyncingHealthy true threeNodesUp).cc.Nodes.map
      (fun n => (n.down, n.syncing)) = [(true, false), (true, true), (false, false)] :=
  have h := gnolandNewRpc_first_passing rpcMismatchSyncingHealthy true threeNodesUp
    [mkNode "http://a/" false, mkNode "http://b" false] [] (mkNode "http://c" false) rfl
    (by
      intro j n hn
      match j, hn with
      | 0, hn => cases hn; exact ⟨rfl, statusOf "other-chain" false, by decide, by decide⟩
      | 1, hn => cases hn; exact ⟨rfl, statusOf "test6" true, by decide, by decide⟩
      | j + 2, hn => simp at hn)
    rfl ⟨statusAt100, by decide, by decide⟩
  ⟨rfl, h.1, h.2.1, h.2.2.1, by decide⟩

/-- C13: gnolandNewRpc returns an error exactly when it leaves noNodes set.
When no endpoint of the registry passes the connect checks itself (each is
down, or does not answer with a decodable status, or reports another chain id,
or is catching up), it returns an error.  Whenever it returns an error it has
set noNodes, recorded the non-empty lastError "no usable Gnoland endpoints
available for" followed by the chain id, accepted no endpoint, and, when the
dashboard is enabled, sent exactly one snapshot with Moniker "Unknown", Bonded,
Jailed and Tombstoned false, Missed, Window, Height and HealthyNodes 0,
ActiveAlerts 1, Nodes the registry length and LastError the recorded error
(no snapshot when the dashboard is disabled). -/
theorem gnolandNewRpc_failure (rpc : Rpc) (enableDash : Bool) (cc : ChainConfig) :
    ((gnolandNewRpc rpc enableDash cc).err ≠ none ↔
      (gnolandNewRpc rpc enableDash cc).cc.noNodes = true) ∧
    ((∀ i n, cc.Nodes[i]? = some n → ¬ EndpointPasses rpc cc i n) →
      (gnolandNewRpc rpc enableDash cc).err ≠ none) ∧
    ((gnolandNewRpc rpc enableDash cc).err ≠ none →
      (gnolandNewRpc rpc enableDash cc).cc.noNodes = true ∧
      (gnolandNewRpc rpc enableDash cc).cc.lastError
        = "no usable Gnoland endpoints available for " ++ cc.ChainId ∧
      (gnolandNewRpc rpc enableDash cc).cc.lastError ≠ "" ∧
      (gnolandNewRpc rpc enableDash cc).err
        = some (gnolandNewRpc rpc enableDash cc).cc.lastError ∧
      (gnolandNewRpc rpc enableDash cc).accepted = none ∧
      (gnolandNewRpc rpc enableDash cc).cc.Nodes.length = cc.Nodes.length ∧
      (gnolandNewRpc rpc enableDash cc).snapshots
        = if enableDash then
            [{ MsgType := "status", Name := cc.name, ChainId := cc.ChainId,
               Moniker := "Unknown", Bonded := false, Jailed := false, Tombstoned := false,
               Missed := 0, Window := 0, Nodes := cc.Nodes.length, HealthyNodes := 0,
               ActiveAlerts := 1, Height := 0,
               LastError := (gnolandNewRpc rpc enableDash cc).cc.lastError,
               Blocks := cc.blocksResults }]
          else []) := by
  refine ⟨?_, ?_, ?_⟩
  · cases h : (gnolandNewRpcLoop rpc cc [] cc.Nodes).1 with
    | none => simp [gnolandNewRpc_of_none rpc enableDash cc h]
    | some i => simp [gnolandNewRpc_of_some rpc enableDash cc i h]
  · intro hno
    rw [gnolandNewRpc_err_iff]
    exact gnolandNewRpcLoop_no_pass rpc cc cc.Nodes [] (by simp) (by simpa using hno)
  · intro herr
    have h := (gnolandNewRpc_err_iff rpc enableDash cc).mp herr
    have hlen := gnolandNewRpcLoop_length rpc cc cc.Nodes []
    rw [gnolandNewRpc_of_none rpc enableDash cc h]
    refine ⟨rfl, rfl, ?_, rfl, rfl, by simpa using hlen, rfl⟩
    exact append_ne_empty _ _ (by decide)

/-- Witness for C13: two live endpoints on a network that cannot be reached. -/
theorem gnolandNewRpc_failure_witness :
    (∀ i n, twoNodesUp.Nodes[i]? = some n → ¬ EndpointPasses rpcAllDead twoNodesUp i n) ∧
    (gnolandNewRpc rpcAllDead true twoNodesUp).err ≠ none ∧
    (gnolandNewRpc rpcAllDead true twoNodesUp).cc.noNodes = true :=
  have hno : ∀ i n, twoNodesUp.Nodes[i]? = some n →
      ¬ EndpointPasses rpcAllDead twoNodesUp i n := by
    rintro i n _ ⟨_, st, hst, _⟩
    cases hst
  have h := gnolandNewRpc_failure rpcAllDead true twoNodesUp
  ⟨hno, h.2.1 hno, (h.2.2 (h.2.1 hno)).1⟩

/-- C14: the endpoint invariant (a down endpoint carries a non-empty message)
is kept by gnolandNewRpc, by one probe of the health prober on any endpoint
with any outcome, and by a failover request; so it holds after every sequence
of these operations on a registry whose endpoints all start not down. -/
theorem downHasMsg_invariant (cc : ChainConfig) :
    (∀ rpc enableDash, DownHasMsg cc.Nodes →
      DownHasMsg (gnolandNewRpc rpc enableDash cc).cc.Nodes) ∧
    (∀ rpc now i, DownHasMsg cc.Nodes →
      DownHasMsg (gnolandHealthCheckAt rpc now cc i).Nodes) ∧
    (∀ op, DownHasMsg cc.Nodes → DownHasMsg (applyOp cc op).Nodes) ∧
    (∀ ops, (∀ n ∈ cc.Nodes, n.down = false) → DownHasMsg (applyOps cc ops).Nodes) := by
  have hconnect : ∀ (c : ChainConfig) rpc enableDash, DownHasMsg c.Nodes →
      DownHasMsg (gnolandNewRpc rpc enableDash c).cc.Nodes := by
    intro c rpc enableDash h
    have hl := gnolandNewRpcLoop_downHasMsg rpc c c.Nodes [] (fun n hn => by simp at hn) h
    cases hr : (gnolandNewRpcLoop rpc c [] c.Nodes).1 with
    | none =>
      rw [gnolandNewRpc_of_none rpc enableDash c hr]
      exact hl
    | some k =>
      rw [gnolandNewRpc_of_some rpc enableDash c k hr]
      exact hl
  have hprobe : ∀ (c : ChainConfig) rpc now i, DownHasMsg c.Nodes →
      DownHasMsg (gnolandHealthCheckAt rpc now c i).Nodes := by
    intro c rpc now i h
    unfold gnolandHealthCheckAt
    cases hn : c.Nodes[i]? with
    | none => exact h
    | some node =>
      intro x hx hxd
      rcases List.mem_or_eq_of_mem_set hx with hx | hx
      · exact h x hx hxd
      · rw [hx] at hxd ⊢
        exact gnolandHealthCheckNode_downHasMsg rpc now c i node
          (h node (List.getElem?_mem hn)) hxd
  have hop : ∀ (c : ChainConfig) op, DownHasMsg c.Nodes → DownHasMsg (applyOp c op).Nodes := by
    intro c op h
    cases op with
    | connect rpc enableDash => exact hconnect c rpc enableDash h
    | probe rpc now i => exact hprobe c rpc now i h
    | request rpc endpoint params =>
      show DownHasMsg (gnolandHTTPRequestRun rpc c endpoint params).2.Nodes
      rw [gnolandHTTPRequestRun_eq]
      exact h
  refine ⟨hconnect cc, hprobe cc, hop cc, ?_⟩
  intro ops hup
  have hinit : DownHasMsg cc.Nodes := by
    intro n hn hd
    rw [hup n hn] at hd
    cases hd
  have hall : ∀ (l : List RegistryOp) (c : ChainConfig), DownHasMsg c.Nodes →
      DownHasMsg (applyOps c l).Nodes := by
    intro l
    induction l with
    | nil => exact fun c h => h
    | cons op rest ih => exact fun c h => ih (applyOp c op) (hop c op h)
  exact hall ops cc hinit

/-- Witness for C14: connect on an unreachable network, then a probe, then a
request, on two endpoints that start not down. -/
theorem downHasMsg_invariant_witness :
    (∀ n ∈ twoNodesUp.Nodes, n.down = false) ∧
    DownHasMsg (applyOps twoNodesUp
      [.connect rpcAllDead true, .probe rpcFirstDead 5 1, .request rpcAllOk "/status" none]).Nodes :=
  ⟨by decide, (downHasMsg_invariant twoNodesUp).2.2.2 _ (by decide)⟩

/-- C19: whenever gnolandNewRpc fails, every endpoint of the registry it leaves
is down; so the healthy-node count of that registry is 0, which is the
HealthyNodes of the snapshot sent; every later failover request, on any
network, contacts no endpoint and fails; and this still holds after a probe of
the health prober that does not find its endpoint healthy. -/
theorem gnolandNewRpc_failure_all_down (rpc : Rpc) (enableDash : Bool) (cc : ChainConfig)
    (h : (gnolandNewRpc rpc enableDash cc).err ≠ none) :
    (∀ n ∈ (gnolandNewRpc rpc enableDash cc).cc.Nodes, n.down = true) ∧
    countHealthyNodes (gnolandNewRpc rpc enableDash cc).cc.Nodes 0 = 0 ∧
    (∀ s ∈ (gnolandNewRpc rpc enableDash cc).snapshots,
      s.HealthyNodes = countHealthyNodes (gnolandNewRpc rpc enableDash cc).cc.Nodes 0) ∧
    (∀ rpc2 endpoint params,
      gnolandHTTPRequest rpc2 (gnolandNewRpc rpc enableDash cc).cc endpoint params
        = (.error "no working nodes available", [])) ∧
    (∀ rpc3 now i,
      (∀ n, (gnolandNewRpc rpc enableDash cc).cc.Nodes[i]? = some n →
        ¬ ProbeHealthy rpc3 i n) →
      (∀ n ∈ (gnolandHealthCheckAt rpc3 now (gnolandNewRpc rpc enableDash cc).cc i).Nodes,
        n.down = true) ∧
      ∀ rpc2 endpoint params,
        gnolandHTTPRequest rpc2
            (gnolandHealthCheckAt rpc3 now (gnolandNewRpc rpc enableDash cc).cc i)
            endpoint params
          = (.error "no working nodes available", [])) := by
  have hnone := (gnolandNewRpc_err_iff rpc enableDash cc).mp h
  have hdown : ∀ n ∈ (gnolandNewRpc rpc enableDash cc).cc.Nodes, n.down = true := by
    rw [gnolandNewRpc_of_none rpc enableDash cc hnone]
    exact gnolandNewRpcLoop_none_all_down rpc cc cc.Nodes [] (by simp) hnone
  have hcount : countHealthyNodes (gnolandNewRpc rpc enableDash cc).cc.Nodes 0 = 0 := by
    rw [countHealthyNodes_eq, Nat.zero_add, List.length_eq_zero, List.filter_eq_nil_iff]
    intro n hn
    simp [hdown n hn]
  refine ⟨hdown, hcount, ?_, ?_, ?_⟩
  · intro s hs
    rw [hcount]
    rw [gnolandNewRpc_of_none rpc enableDash cc hnone] at hs
    cases enableDash with
    | true =>
      simp only [if_true, List.mem_singleton] at hs
      rw [hs]
    | false => simp at hs
  · intro rpc2 endpoint params
    exact loop_all_down rpc2 endpoint params 0 _ hdown
  · intro rpc3 now i hp
    have hstill : ∀ n ∈ (gnolandHealthCheckAt rpc3 now
        (gnolandNewRpc rpc enableDash cc).cc i).Nodes, n.down = true := by
      unfold gnolandHealthCheckAt
      cases hn : (gnolandNewRpc rpc enableDash cc).cc.Nodes[i]? with
      | none => exact hdown
      | some node =>
        intro x hx
        rcases List.mem_or_eq_of_mem_set hx with hx | hx
        · exact hdown x hx
        · rw [hx]
          exact gnolandHealthCheckNode_stays_down rpc3 now _ i node
            (hdown node (List.getElem?_mem hn)) (hp node hn)
    exact ⟨hstill, fun rpc2 endpoint params => loop_all_down rpc2 endpoint params 0 _ hstill⟩

/-- Witness for C19: connect fails on an unreachable network with two live
endpoints; both end down. -/
theorem gnolandNewRpc_failure_all_down_witness :
    (gnolandNewRpc rpcAllDead true twoNodesUp).err ≠ none ∧
    ∀ n ∈ (gnolandNewRpc rpcAllDead true twoNodesUp).cc.Nodes, n.down = true :=
  ⟨by decide, (gnolandNewRpc_failure_all_down rpcAllDead true twoNodesUp (by decide)).1⟩

/-! ## Lemmas on the monitor loop -/

/-- The failover request reads of the chain state only the registry. -/
theorem gnolandGetStatus_congr (rpc : Rpc) (cc cc1 : ChainConfig) (h : cc1.Nodes = cc.Nodes) :
    gnolandGetStatus rpc cc1 = gnolandGetStatus rpc cc := by
  simp only [gnolandGetStatus, gnolandHTTPRequest, h]

/-- Every contact of gnolandGetStatus is a /status request without parameters to
an endpoint of the registry that is not down. -/
theorem gnolandGetStatus_contacts (rpc : Rpc) (cc : ChainConfig) (c : Contact)
    (hc : c ∈ (gnolandGetStatus rpc cc).2) :
    ∃ n, cc.Nodes[c.1]? = some n ∧ n.down = false ∧ c.2 = buildRequest n "/status" none := by
  rw [gnolandGetStatus_eq] at hc
  obtain ⟨k, n, h1, h2, h3, h4⟩ := loop_contact rpc "/status" none 0 cc.Nodes c hc
  refine ⟨n, ?_, h3, h4⟩
  rw [h1, Nat.zero_add]
  exact h2

/-- Every contact of gnolandCheckValidatorSigned is a /block request for the
given height; the status is unknown (-1) when the block fetch fails. -/
theorem gnolandCheckValidatorSigned_contacts (rpc : Rpc) (cc : ChainConfig) (height : String) :
    (∀ c ∈ (gnolandCheckValidatorSigned rpc cc height).2,
      ∃ n, cc.Nodes[c.1]? = some n ∧
        c.2 = buildRequest n "/block" (some [("height", height)])) ∧
    (∀ err, (gnolandGetBlock rpc cc height).1 = .error err →
      (gnolandCheckValidatorSigned rpc cc height).1 = -1) := by
  constructor
  · intro c hc
    have h2 : (gnolandCheckValidatorSigned rpc cc height).2
        = (gnolandHTTPRequest rpc cc "/block" (some [("height", height)])).2 := by
      unfold gnolandCheckValidatorSigned
      rw [gnolandGetBlock_eq]
      split <;> simp_all
    rw [h2] at hc
    obtain ⟨k, n, h1, h3, _, h4⟩ := loop_contact rpc "/block" _ 0 cc.Nodes c hc
    refine ⟨n, ?_, h4⟩
    rw [h1, Nat.zero_add]
    exact h3
  · intro err herr
    unfold gnolandCheckValidatorSigned
    rcases hb : gnolandGetBlock rpc cc height with ⟨r, tr⟩
    rw [hb] at herr
    simp only at herr
    subst herr
    rfl

/-- A ledger update changes only the window and ValInfo, and keeps ValInfo present. -/
theorem recordOutcome_frame (cc cc1 : ChainConfig) (c : Int)
    (h : recordOutcome cc c = some cc1) :
    cc1.name = cc.name ∧ cc1.ChainId = cc.ChainId ∧ cc1.ValAddress = cc.ValAddress ∧
    cc1.Nodes = cc.Nodes ∧ cc1.noNodes = cc.noNodes ∧ cc1.lastError = cc.lastError ∧
    (cc.valInfo ≠ none → cc1.valInfo ≠ none) ∧
    ∃ w, cc1.blocksResults = some w ∧ w ≠ [] := by
  unfold recordOutcome at h
  cases hw : cc.blocksResults.getD [] with
  | nil => simp [hw] at h
  | cons b bs =>
    by_cases hc : c = 0
    · cases hv : cc.valInfo with
      | none => simp [hw, hc, hv] at h
      | some v =>
        simp only [hw, hc, hv, if_true, Option.some.injEq] at h
        subst h
        simp
    · simp only [hw, hc, if_false, Option.some.injEq] at h
      subst h
      simp

/-- On an initialised ledger a ledger update does not panic. -/
theorem recordOutcome_ready (cc : ChainConfig) (c : Int) (h : LedgerReady cc) :
    ∃ cc1, recordOutcome cc c = some cc1 ∧ LedgerReady cc1 ∧
      ∀ w, cc.blocksResults = some w →
        cc1.blocksResults = some (c :: w.take (w.length - 1)) := by
  obtain ⟨v, w, hv, hw, hne⟩ := h
  have hsome : ∃ cc1, recordOutcome cc c = some cc1 ∧
      cc1.blocksResults = some (c :: w.take (w.length - 1)) := by
    by_cases hc : c = 0
    · subst hc
      exact ⟨_, recordOutcome_missed cc w v hw hne hv, rfl⟩
    · exact ⟨_, recordOutcome_not_missed cc w c hw hne hc, rfl⟩
  obtain ⟨cc1, h1, h2⟩ := hsome
  obtain ⟨_, _, _, _, _, _, hv1, w1, hw1, hne1⟩ := recordOutcome_frame cc cc1 c h1
  obtain ⟨v1, hv2⟩ := Option.ne_none_iff_exists'.mp (hv1 (by rw [hv]; simp))
  refine ⟨cc1, h1, ⟨v1, w1, hv2, hw1, hne1⟩, ?_⟩
  intro w0 hw0
  rw [hw] at hw0
  cases hw0
  exact h2

/-- A tick that starts with noNodes set does nothing. -/
theorem tick_noNodes (rpc : Rpc) (enableDash : Bool) (cc : ChainConfig) (lph : Int)
    (h : cc.noNodes = true) :
    gnolandMonitorBlocksTick rpc enableDash cc lph
      = some { cc := cc, lastProcessedHeight := lph, contacts := [], snapshots := [] } := by
  simp [gnolandMonitorBlocksTick, h]

/-- A tick whose status fetch fails only makes the status contacts. -/
theorem tick_status_error (rpc : Rpc) (enableDash : Bool) (cc : ChainConfig) (lph : Int)
    (err : String) (h : cc.noNodes = false) (hs : (gnolandGetStatus rpc cc).1 = .error err) :
    gnolandMonitorBlocksTick rpc enableDash cc lph
      = some { cc := cc, lastProcessedHeight := lph,
               contacts := (gnolandGetStatus rpc cc).2, snapshots := [] } := by
  unfold gnolandMonitorBlocksTick
  rcases hg : gnolandGetStatus rpc cc with ⟨r, tr⟩
  rw [hg] at hs
  simp only at hs
  subst hs
  simp [h]

/-- A tick whose status reports catching up only makes the status contacts. -/
theorem tick_catching_up (rpc : Rpc) (enableDash : Bool) (cc : ChainConfig) (lph : Int)
    (st : GnoStatus) (h : cc.noNodes = false) (hs : (gnolandGetStatus rpc cc).1 = .ok st)
    (hcu : st.SyncInfo.CatchingUp = true) :
    gnolandMonitorBlocksTick rpc enableDash cc lph
      = some { cc := cc, lastProcessedHeight := lph,
               contacts := (gnolandGetStatus rpc cc).2, snapshots := [] } := by
  unfold gnolandMonitorBlocksTick
  rcases hg : gnolandGetStatus rpc cc with ⟨r, tr⟩
  rw [hg] at hs
  simp only at hs
  subst hs
  simp [h, hcu]

/-- A tick whose reported height has not advanced makes the status contacts and
sends the snapshot of the unchanged state. -/
theorem tick_no_advance (rpc : Rpc) (enableDash : Bool) (cc : ChainConfig) (lph : Int)
    (st : GnoStatus) (h : cc.noNodes = false) (hs : (gnolandGetStatus rpc cc).1 = .ok st)
    (hcu : st.SyncInfo.CatchingUp = false) (hh : latestHeight st ≤ lph) :
    gnolandMonitorBlocksTick rpc enableDash cc lph
      = (tickSnapshot enableDash cc (latestHeight st)).map (fun snaps =>
          { cc := cc, lastProcessedHeight := lph,
            contacts := (gnolandGetStatus rpc cc).2, snapshots := snaps }) := by
  unfold gnolandMonitorBlocksTick
  rcases hg : gnolandGetStatus rpc cc with ⟨r, tr⟩
  rw [hg] at hs
  simp only at hs
  subst hs
  have hnot : ¬ latestHeight st > lph := by omega
  simp only [h, hcu, hnot, Bool.false_eq_true, if_false, Bool.not_false, if_true]
  cases tickSnapshot enableDash cc (latestHeight st) <;> rfl

/-- A tick whose reported height has advanced checks the block at the reported
height, updates the ledger once and sends the snapshot of the new state. -/
theorem tick_advance (rpc : Rpc) (enableDash : Bool) (cc : ChainConfig) (lph : Int)
    (st : GnoStatus) (h : cc.noNodes = false) (hs : (gnolandGetStatus rpc cc).1 = .ok st)
    (hcu : st.SyncInfo.CatchingUp = false) (hh : lph < latestHeight st) :
    gnolandMonitorBlocksTick rpc enableDash cc lph
      = (recordOutcome cc
          (gnolandCheckValidatorSigned rpc cc st.SyncInfo.LatestBlockHeight).1).bind
        (fun cc1 => (tickSnapshot enableDash cc1 (latestHeight st)).map (fun snaps =>
          { cc := cc1, lastProcessedHeight := latestHeight st,
            contacts := (gnolandGetStatus rpc cc).2
              ++ (gnolandCheckValidatorSigned rpc cc st.SyncInfo.LatestBlockHeight).2,
            snapshots := snaps })) := by
  unfold gnolandMonitorBlocksTick
  rcases hg : gnolandGetStatus rpc cc with ⟨r, tr⟩
  rw [hg] at hs
  simp only at hs
  subst hs
  have hgt : latestHeight st > lph := hh
  simp only [h, hcu, hgt, Bool.false_eq_true, if_false, Bool.not_false, if_true]
  cases recordOutcome cc
      (gnolandCheckValidatorSigned rpc cc st.SyncInfo.LatestBlockHeight).1 with
  | none => rfl
  | some cc1 =>
    simp only [Option.bind]
    cases tickSnapshot enableDash cc1 (latestHeight st) <;> rfl

/-- With ValInfo present the dashboard update does not panic: one snapshot of
the current state when the dashboard is enabled, none otherwise. -/
theorem tickSnapshot_ready (enableDash : Bool) (cc : ChainConfig) (height : Int) (v : ValInfo)
    (hv : cc.valInfo = some v) :
    tickSnapshot enableDash cc height
      = some (if enableDash then [monitorStatus cc v height] else []) := by
  cases enableDash <;> simp [tickSnapshot, hv]

/-- Whatever a tick does, it leaves the registry, noNodes and lastError as they
were and does not lower lastProcessedHeight. -/
theorem tick_frame (rpc : Rpc) (enableDash : Bool) (cc : ChainConfig) (lph : Int)
    (r : TickResult) (h : gnolandMonitorBlocksTick rpc enableDash cc lph = some r) :
    r.cc.Nodes = cc.Nodes ∧ r.cc.noNodes = cc.noNodes ∧ r.cc.lastError = cc.lastError ∧
    lph ≤ r.lastProcessedHeight := by
  cases hn : cc.noNodes with
  | true =>
    rw [tick_noNodes rpc enableDash cc lph hn] at h
    cases h
    exact ⟨rfl, hn, rfl, le_refl _⟩
  | false =>
    cases hs : (gnolandGetStatus rpc cc).1 with
    | error err =>
      rw [tick_status_error rpc enableDash cc lph err hn hs] at h
      cases h
      exact ⟨rfl, hn, rfl, le_refl _⟩
    | ok st =>
      cases hcu : st.SyncInfo.CatchingUp with
      | true =>
        rw [tick_catching_up rpc enableDash cc lph st hn hs hcu] at h
        cases h
        exact ⟨rfl, hn, rfl, le_refl _⟩
      | false =>
        by_cases hh : latestHeight st ≤ lph
        · rw [tick_no_advance rpc enableDash cc lph st hn hs hcu hh] at h
          cases hsn : tickSnapshot enableDash cc (latestHeight st) with
          | none => simp [hsn] at h
          | some snaps =>
            simp only [hsn, Option.map_some', Option.some.injEq] at h
            subst h
            exact ⟨rfl, hn, rfl, le_refl _⟩
        · rw [tick_advance rpc enableDash cc lph st hn hs hcu (by omega)] at h
          cases hro : recordOutcome cc
              (gnolandCheckValidatorSigned rpc cc st.SyncInfo.LatestBlockHeight).1 with
          | none => simp [hro] at h
          | some cc1 =>
            obtain ⟨_, _, _, f1, f2, f3, _⟩ := recordOutcome_frame cc cc1 _ hro
            cases hsn : tickSnapshot enableDash cc1 (latestHeight st) with
            | none => simp [hro, hsn] at h
            | some snaps =>
              simp only [hro, hsn, Option.some_bind, Option.map_some', Option.some.injEq] at h
              subst h
              refine ⟨f1, by rw [f2, hn], f3, ?_⟩
              show lph ≤ latestHeight st
              omega

/-- On an initialised ledger a tick does not panic and leaves the ledger initialised. -/
theorem tick_ready (rpc : Rpc) (enableDash : Bool) (cc : ChainConfig) (lph : Int)
    (h : LedgerReady cc) :
    ∃ r, gnolandMonitorBlocksTick rpc enableDash cc lph = some r ∧ LedgerReady r.cc := by
  obtain ⟨v, w, hv, hw, hne⟩ := h
  have hready : LedgerReady cc := ⟨v, w, hv, hw, hne⟩
  cases hn : cc.noNodes with
  | true => exact ⟨_, tick_noNodes rpc enableDash cc lph hn, hready⟩
  | false =>
    cases hs : (gnolandGetStatus rpc cc).1 with
    | error err => exact ⟨_, tick_status_error rpc enableDash cc lph err hn hs, hready⟩
    | ok st =>
      cases hcu : st.SyncInfo.CatchingUp with
      | true => exact ⟨_, tick_catching_up rpc enableDash cc lph st hn hs hcu, hready⟩
      | false =>
        by_cases hh : latestHeight st ≤ lph
        · rw [tick_no_advance rpc enableDash cc lph st hn hs hcu hh,
            tickSnapshot_ready enableDash cc _ v hv]
          exact ⟨_, rfl, hready⟩
        · obtain ⟨cc1, h1, hr1, _⟩ := recordOutcome_ready cc
            (gnolandCheckValidatorSigned rpc cc st.SyncInfo.LatestBlockHeight).1 hready
          obtain ⟨v1, w1, hv1, hw1, hne1⟩ := hr1
          rw [tick_advance rpc enableDash cc lph st hn hs hcu (by omega), h1, Option.some_bind,
            tickSnapshot_ready enableDash cc1 _ v1 hv1]
          exact ⟨_, rfl, ⟨v1, w1, hv1, hw1, hne1⟩⟩

/-- Over any sequence of ticks lastProcessedHeight does not decrease and the
registry, noNodes and lastError stay as they were. -/
theorem ticks_frame (enableDash : Bool) (rpcs : List Rpc) (cc : ChainConfig) (lph : Int)
    (r : TickResult) (h : gnolandMonitorBlocksTicks enableDash cc lph rpcs = some r) :
    r.cc.Nodes = cc.Nodes ∧ r.cc.noNodes = cc.noNodes ∧ r.cc.lastError = cc.lastError ∧
    lph ≤ r.lastProcessedHeight := by
  induction rpcs generalizing cc lph r with
  | nil =>
    simp only [gnolandMonitorBlocksTicks, Option.some.injEq] at h
    subst h
    exact ⟨rfl, rfl, rfl, le_refl _⟩
  | cons rpc rest ih =>
    simp only [gnolandMonitorBlocksTicks] at h
    cases h1 : gnolandMonitorBlocksTick rpc enableDash cc lph with
    | none => simp [h1] at h
    | some r1 =>
      cases h2 : gnolandMonitorBlocksTicks enableDash r1.cc r1.lastProcessedHeight rest with
      | none => simp [h1, h2] at h
      | some r2 =>
        simp only [h1, h2, Option.some.injEq] at h
        subst h
        obtain ⟨a1, a2, a3, a4⟩ := tick_frame rpc enableDash cc lph r1 h1
        obtain ⟨b1, b2, b3, b4⟩ := ih r1.cc r1.lastProcessedHeight r2 h2
        exact ⟨by rw [b1, a1], by rw [b2, a2], by rw [b3, a3], le_trans a4 b4⟩

/-- On an initialised ledger no sequence of ticks panics. -/
theorem ticks_ready (enableDash : Bool) (rpcs : List Rpc) (cc : ChainConfig) (lph : Int)
    (h : LedgerReady cc) :
    ∃ r, gnolandMonitorBlocksTicks enableDash cc lph rpcs = some r ∧ LedgerReady r.cc := by
  induction rpcs generalizing cc lph with
  | nil => exact ⟨_, rfl, h⟩
  | cons rpc rest ih =>
    obtain ⟨r1, h1, hr1⟩ := tick_ready rpc enableDash cc lph h
    obtain ⟨r2, h2, hr2⟩ := ih r1.cc r1.lastProcessedHeight hr1
    exact ⟨{ cc := r2.cc, lastProcessedHeight := r2.lastProcessedHeight,
             contacts := r1.contacts ++ r2.contacts,
             snapshots := r1.snapshots ++ r2.snapshots },
      by simp only [gnolandMonitorBlocksTicks, h1, h2], hr2⟩

/-- A tick whose height has not advanced, on a chain with ValInfo present. -/
theorem tick_no_advance_ready (rpc : Rpc) (enableDash : Bool) (cc : ChainConfig) (lph : Int)
    (st : GnoStatus) (v : ValInfo) (h : cc.noNodes = false)
    (hs : (gnolandGetStatus rpc cc).1 = .ok st) (hcu : st.SyncInfo.CatchingUp = false)
    (hh : latestHeight st ≤ lph) (hv : cc.valInfo = some v) :
    gnolandMonitorBlocksTick rpc enableDash cc lph
      = some { cc := cc, lastProcessedHeight := lph, contacts := (gnolandGetStatus rpc cc).2,
               snapshots := if enableDash then [monitorStatus cc v (latestHeight st)] else [] } := by
  rw [tick_no_advance rpc enableDash cc lph st h hs hcu hh,
    tickSnapshot_ready enableDash cc _ v hv]
  rfl

/-- A tick whose height has advanced, on an initialised ledger. -/
theorem tick_advance_ready (rpc : Rpc) (enableDash : Bool) (cc : ChainConfig) (lph : Int)
    (st : GnoStatus) (h : cc.noNodes = false) (hs : (gnolandGetStatus rpc cc).1 = .ok st)
    (hcu : st.SyncInfo.CatchingUp = false) (hh : lph < latestHeight st)
    (hready : LedgerReady cc) :
    ∃ cc1 v1, recordOutcome cc
        (gnolandCheckValidatorSigned rpc cc st.SyncInfo.LatestBlockHeight).1 = some cc1 ∧
      cc1.valInfo = some v1 ∧ LedgerReady cc1 ∧
      (∀ w, cc.blocksResults = some w →
        cc1.blocksResults
          = some ((gnolandCheckValidatorSigned rpc cc st.SyncInfo.LatestBlockHeight).1
              :: w.take (w.length - 1))) ∧
      gnolandMonitorBlocksTick rpc enableDash cc lph
        = some { cc := cc1, lastProcessedHeight := latestHeight st,
                 contacts := (gnolandGetStatus rpc cc).2
                   ++ (gnolandCheckValidatorSigned rpc cc st.SyncInfo.LatestBlockHeight).2,
                 snapshots :=
                   if enableDash then [monitorStatus cc1 v1 (latestHeight st)] else [] } := by
  obtain ⟨cc1, h1, hr1, hwin⟩ := recordOutcome_ready cc
    (gnolandCheckValidatorSigned rpc cc st.SyncInfo.LatestBlockHeight).1 hready
  obtain ⟨v1, w1, hv1, hw1, hne1⟩ := hr1
  refine ⟨cc1, v1, h1, hv1, ⟨v1, w1, hv1, hw1, hne1⟩, hwin, ?_⟩
  rw [tick_advance rpc enableDash cc lph st h hs hcu hh, h1, Option.some_bind,
    tickSnapshot_ready enableDash cc1 _ v1 hv1]
  rfl

/-! ## Monitor loop: theorems -/

/-- C15: a tick on a chain that is not noNodes, whose status fetch succeeds,
reports not catching up and a height not above lastProcessedHeight, with
ValInfo present, makes only the /status contacts of the status fetch (no block
request), leaves the chain state (window and Missed included) and
lastProcessedHeight unchanged, and sends exactly one snapshot when the
dashboard is enabled (none otherwise), carrying the current Missed, Window and
window contents.  In particular, of two consecutive ticks that both report
height "100", starting below 100 on an initialised ledger, only the first
requests the block and updates the ledger; both send a snapshot. -/
theorem tick_same_height (enableDash : Bool) :
    (∀ (rpc : Rpc) (cc : ChainConfig) (lph : Int) (st : GnoStatus) (v : ValInfo),
      cc.noNodes = false → (gnolandGetStatus rpc cc).1 = .ok st →
      st.SyncInfo.CatchingUp = false → latestHeight st ≤ lph → cc.valInfo = some v →
      gnolandMonitorBlocksTick rpc enableDash cc lph
        = some { cc := cc, lastProcessedHeight := lph,
                 contacts := (gnolandGetStatus rpc cc).2,
                 snapshots :=
                   if enableDash then [monitorStatus cc v (latestHeight st)] else [] } ∧
      (∀ c ∈ (gnolandGetStatus rpc cc).2, ∃ n, cc.Nodes[c.1]? = some n ∧
        c.2 = buildRequest n "/status" none) ∧
      (monitorStatus cc v (latestHeight st)).Missed = v.Missed ∧
      (monitorStatus cc v (latestHeight st)).Window = v.Window ∧
      (monitorStatus cc v (latestHeight st)).Blocks = cc.blocksResults) ∧
    (∀ (rpc1 rpc2 : Rpc) (cc : ChainConfig) (lph : Int) (st1 st2 : GnoStatus),
      cc.noNodes = false → LedgerReady cc → lph < 100 →
      (gnolandGetStatus rpc1 cc).1 = .ok st1 → st1.SyncInfo.CatchingUp = false →
      st1.SyncInfo.LatestBlockHeight = "100" →
      (gnolandGetStatus rpc2 cc).1 = .ok st2 → st2.SyncInfo.CatchingUp = false →
      st2.SyncInfo.LatestBlockHeight = "100" →
      ∃ cc1 r, recordOutcome cc (gnolandCheckValidatorSigned rpc1 cc "100").1 = some cc1 ∧
        gnolandMonitorBlocksTicks enableDash cc lph [rpc1, rpc2] = some r ∧
        r.cc = cc1 ∧ r.lastProcessedHeight = 100 ∧
        r.contacts = (gnolandGetStatus rpc1 cc).2
          ++ (gnolandCheckValidatorSigned rpc1 cc "100").2 ++ (gnolandGetStatus rpc2 cc).2 ∧
        r.snapshots.length = if enableDash then 2 else 0) := by
  constructor
  · intro rpc cc lph st v hn hs hcu hh hv
    refine ⟨tick_no_advance_ready rpc enableDash cc lph st v hn hs hcu hh hv, ?_, rfl, rfl, rfl⟩
    intro c hc
    obtain ⟨n, h1, _, h2⟩ := gnolandGetStatus_contacts rpc cc c hc
    exact ⟨n, h1, h2⟩
  · intro rpc1 rpc2 cc lph st1 st2 hn hready hlt hs1 hcu1 hh1 hs2 hcu2 hh2
    have hp : parseInt64 "100" = some 100 := by decide
    have hl1 : latestHeight st1 = 100 := by simp only [latestHeight, hh1, hp]
    have hl2 : latestHeight st2 = 100 := by simp only [latestHeight, hh2, hp]
    obtain ⟨cc1, v1, h1, hv1, hr1, _, ht1⟩ := tick_advance_ready rpc1 enableDash cc lph st1
      hn hs1 hcu1 (by omega) hready
    rw [hh1, hl1] at ht1
    rw [hh1] at h1
    obtain ⟨_, _, _, f1, f2, _⟩ := recordOutcome_frame cc cc1 _ h1
    have hcongr := gnolandGetStatus_congr rpc2 cc cc1 f1
    have ht2 := tick_no_advance_ready rpc2 enableDash cc1 100 st2 v1 (by rw [f2, hn])
      (by rw [hcongr]; exact hs2) hcu2 (by omega) hv1
    rw [hcongr] at ht2
    refine ⟨cc1,
      { cc := cc1, lastProcessedHeight := 100,
        contacts := ((gnolandGetStatus rpc1 cc).2 ++ (gnolandCheckValidatorSigned rpc1 cc "100").2)
          ++ ((gnolandGetStatus rpc2 cc).2 ++ []),
        snapshots := (if enableDash then [monitorStatus cc1 v1 100] else [])
          ++ ((if enableDash then [monitorStatus cc1 v1 (latestHeight st2)] else []) ++ []) },
      h1, by simp only [gnolandMonitorBlocksTicks, ht1, ht2], rfl, rfl, ?_, ?_⟩
    · simp
    · cases enableDash <;> simp

/-- Witness for C15: two ticks on a healthy network reporting height 100, from
lastProcessedHeight 0 on an initialised ledger. -/
theorem tick_same_height_witness :
    chainWithMissed.noNodes = false ∧ LedgerReady chainWithMissed ∧
    ∃ cc1 r, recordOutcome chainWithMissed
        (gnolandCheckValidatorSigned rpcHealthy chainWithMissed "100").1 = some cc1 ∧
      gnolandMonitorBlocksTicks true chainWithMissed 0 [rpcHealthy, rpcHealthy] = some r ∧
      r.cc = cc1 ∧ r.lastProcessedHeight = 100 ∧
      r.contacts = (gnolandGetStatus rpcHealthy chainWithMissed).2
        ++ (gnolandCheckValidatorSigned rpcHealthy chainWithMissed "100").2
        ++ (gnolandGetStatus rpcHealthy chainWithMissed).2 ∧
      r.snapshots.length = if true then 2 else 0 :=
  have hready : LedgerReady chainWithMissed := ⟨_, _, rfl, rfl, by decide⟩
  ⟨rfl, hready, (tick_same_height true).2 rpcHealthy rpcHealthy chainWithMissed 0
    statusAt100 statusAt100 rfl hready (by decide) (by decide) rfl rfl (by decide) rfl rfl⟩

/-- C16: a tick that starts with noNodes set makes no contact at all; a tick
whose status fetch fails, or whose status reports catching up, makes only the
/status contacts of that fetch.  In all three cases the tick sends no snapshot,
requests no block and leaves the whole chain state (window, ValInfo, registry
with every health field) and lastProcessedHeight unchanged. -/
theorem tick_skipped (rpc : Rpc) (enableDash : Bool) (cc : ChainConfig) (lph : Int) :
    (cc.noNodes = true →
      gnolandMonitorBlocksTick rpc enableDash cc lph
        = some { cc := cc, lastProcessedHeight := lph, contacts := [], snapshots := [] }) ∧
    (cc.noNodes = false → ∀ err, (gnolandGetStatus rpc cc).1 = .error err →
      gnolandMonitorBlocksTick rpc enableDash cc lph
        = some { cc := cc, lastProcessedHeight := lph,
                 contacts := (gnolandGetStatus rpc cc).2, snapshots := [] }) ∧
    (cc.noNodes = false → ∀ st, (gnolandGetStatus rpc cc).1 = .ok st →
      st.SyncInfo.CatchingUp = true →
      gnolandMonitorBlocksTick rpc enableDash cc lph
        = some { cc := cc, lastProcessedHeight := lph,
                 contacts := (gnolandGetStatus rpc cc).2, snapshots := [] }) ∧
    (∀ c ∈ (gnolandGetStatus rpc cc).2, ∃ n, cc.Nodes[c.1]? = some n ∧
      c.2 = buildRequest n "/status" none) := by
  refine ⟨tick_noNodes rpc enableDash cc lph,
    fun hn err hs => tick_status_error rpc enableDash cc lph err hn hs,
    fun hn st hs hcu => tick_catching_up rpc enableDash cc lph st hn hs hcu, ?_⟩
  intro c hc
  obtain ⟨n, h1, _, h2⟩ := gnolandGetStatus_contacts rpc cc c hc
  exact ⟨n, h1, h2⟩

/-- Witness for C16: a tick on an unreachable network. -/
theorem tick_skipped_witness :
    chainWithMissed.noNodes = false ∧
    (gnolandGetStatus rpcAllDead chainWithMissed).1 = .error "no working nodes available" ∧
    gnolandMonitorBlocksTick rpcAllDead true chainWithMissed 0
      = some { cc := chainWithMissed, lastProcessedHeight := 0,
               contacts := (gnolandGetStatus rpcAllDead chainWithMissed).2, snapshots := [] } :=
  ⟨rfl, by decide,
    (tick_skipped rpcAllDead true chainWithMissed 0).2.1 rfl "no working nodes available"
      (by decide)⟩

/-- C17: a failover request leaves the chain state as it was, whatever its
outcome.  gnolandHTTPRequest, gnolandGetStatus and gnolandGetBlock, run with
the registry carried through the failover loop, return the result and contacts
of the request and hand back the chain state they were given: every endpoint
with its down, syncing, downSince, lastMsg and wasDown fields, noNodes and
lastError are the same for every network, so on success, on failure of some
endpoints and on failure of all.  Hence the state after any sequence of
requests is the state before, and a tick of the monitor loop, which issues the
status request and the block request, leaves the registry, noNodes and
lastError unchanged. -/
theorem failover_request_frame (rpc : Rpc) (cc : ChainConfig) (endpoint : String)
    (params : Option (List (String × String))) (height : String) :
    gnolandHTTPRequestRun rpc cc endpoint params
      = (gnolandHTTPRequest rpc cc endpoint params, cc) ∧
    gnolandGetStatusRun rpc cc = (gnolandGetStatus rpc cc, cc) ∧
    gnolandGetBlockRun rpc cc height = (gnolandGetBlock rpc cc height, cc) ∧
    ((∀ i : Nat, (gnolandHTTPRequestRun rpc cc endpoint params).2.Nodes[i]? = cc.Nodes[i]?) ∧
      (gnolandHTTPRequestRun rpc cc endpoint params).2.noNodes = cc.noNodes ∧
      (gnolandHTTPRequestRun rpc cc endpoint params).2.lastError = cc.lastError) ∧
    ((∀ i : Nat, (gnolandGetStatusRun rpc cc).2.Nodes[i]? = cc.Nodes[i]?) ∧
      (gnolandGetStatusRun rpc cc).2.noNodes = cc.noNodes ∧
      (gnolandGetStatusRun rpc cc).2.lastError = cc.lastError) ∧
    ((∀ i : Nat, (gnolandGetBlockRun rpc cc height).2.Nodes[i]? = cc.Nodes[i]?) ∧
      (gnolandGetBlockRun rpc cc height).2.noNodes = cc.noNodes ∧
      (gnolandGetBlockRun rpc cc height).2.lastError = cc.lastError) ∧
    (∀ ops : List RegistryOp,
      (∀ op ∈ ops, ∃ rpc1 endpoint1 params1, op = .request rpc1 endpoint1 params1) →
      applyOps cc ops = cc) ∧
    (∀ enableDash lph r, gnolandMonitorBlocksTick rpc enableDash cc lph = some r →
      r.cc.Nodes = cc.Nodes ∧ r.cc.noNodes = cc.noNodes ∧ r.cc.lastError = cc.lastError) := by
  have h1 := gnolandHTTPRequestRun_eq rpc cc endpoint params
  have h2 := gnolandGetStatusRun_eq rpc cc
  have h3 := gnolandGetBlockRun_eq rpc cc height
  refine ⟨h1, h2, h3, ?_, ?_, ?_, ?_, ?_⟩
  · rw [h1]
    exact ⟨fun _ => rfl, rfl, rfl⟩
  · rw [h2]
    exact ⟨fun _ => rfl, rfl, rfl⟩
  · rw [h3]
    exact ⟨fun _ => rfl, rfl, rfl⟩
  · intro ops
    induction ops with
    | nil => exact fun _ => rfl
    | cons op rest ih =>
      intro h
      obtain ⟨rpc1, endpoint1, params1, hop⟩ := h op (by simp)
      subst hop
      have hstep : applyOp cc (.request rpc1 endpoint1 params1) = cc := by
        show (gnolandHTTPRequestRun rpc1 cc endpoint1 params1).2 = cc
        rw [gnolandHTTPRequestRun_eq]
      show applyOps (applyOp cc (.request rpc1 endpoint1 params1)) rest = cc
      rw [hstep]
      exact ih (fun o ho => h o (by simp [ho]))
  · intro enableDash lph r h
    obtain ⟨f1, f2, f3, _⟩ := tick_frame rpc enableDash cc lph r h
    exact ⟨f1, f2, f3⟩

/-- Witness for C17: on two live endpoints, a request that fails on every
endpoint and a request that succeeds on the first; the registry afterwards is
the registry before. -/
theorem failover_request_frame_witness :
    (gnolandHTTPRequestRun rpcAllDead twoNodesUp "/status" none).1.1
      = .error "no working nodes available" ∧
    (gnolandHTTPRequestRun rpcAllDead twoNodesUp "/status" none).2 = twoNodesUp ∧
    (gnolandGetBlockRun rpcFirstDead twoNodesUp "100").1.2
      = [(0, { url := "http://a/block", params := some [("height", "100")] }),
         (1, { url := "http://b/block", params := some [("height", "100")] })] ∧
    (gnolandGetBlockRun rpcFirstDead twoNodesUp "100").2 = twoNodesUp ∧
    (∀ op ∈ [RegistryOp.request rpcAllDead "/status" none,
             RegistryOp.request rpcAllOk "/block" (some [("height", "100")])],
      ∃ rpc endpoint params, op = .request rpc endpoint params) ∧
    applyOps twoNodesUp
      [.request rpcAllDead "/status" none,
       .request rpcAllOk "/block" (some [("height", "100")])] = twoNodesUp :=
  have hreq : ∀ op ∈ [RegistryOp.request rpcAllDead "/status" none,
      RegistryOp.request rpcAllOk "/block" (some [("height", "100")])],
      ∃ rpc endpoint params, op = .request rpc endpoint params := by
    intro op hop
    rcases List.mem_cons.mp hop with h | h
    · exact ⟨_, _, _, h⟩
    · exact ⟨_, _, _, List.mem_singleton.mp h⟩
  have hdead := failover_request_frame rpcAllDead twoNodesUp "/status" none "100"
  have hfirst := failover_request_frame rpcFirstDead twoNodesUp "/status" none "100"
  ⟨by decide, congrArg Prod.snd hdead.1, by decide, congrArg Prod.snd hfirst.2.2.1, hreq,
    hdead.2.2.2.2.2.2.1 _ hreq⟩

/-- C18, counterexample: an initialised state with Missed = 7 and Window = 100;
a further call of gnolandGetValidatorInfo leaves Missed = 0. -/
theorem gnolandGetValidatorInfo_resets_missed_counterexample :
    chainWithMissed.valInfo.map (fun v => (v.Missed, v.Window)) = some (7, 100) ∧
    chainWithMissed.blocksResults = some (List.replicate 512 (-1)) ∧
    (gnolandGetValidatorInfo chainWithMissed).valInfo.map (fun v => v.Missed) = some 0 ∧
    (gnolandGetValidatorInfo chainWithMissed).valInfo.map (fun v => v.Missed)
      ≠ chainWithMissed.valInfo.map (fun v => v.Missed) :=
  ⟨by decide, rfl, by decide, by decide⟩

/-- C18, amended: on every state with ValInfo present and a window that is not
nil, a further call of gnolandGetValidatorInfo leaves the window contents, the
registry, noNodes and lastError unchanged, keeps ValInfo present, and sets
Missed to 0 and Window to 100 (the consensus key is kept when the address is
no hexadecimal string); Missed is unchanged exactly when it was 0. -/
theorem gnolandGetValidatorInfo_again (cc : ChainConfig) (v : ValInfo) (w : List Int)
    (hv : cc.valInfo = some v) (hw : cc.blocksResults = some w) :
    (gnolandGetValidatorInfo cc).blocksResults = some w ∧
    (gnolandGetValidatorInfo cc).Nodes = cc.Nodes ∧
    (gnolandGetValidatorInfo cc).noNodes = cc.noNodes ∧
    (gnolandGetValidatorInfo cc).lastError = cc.lastError ∧
    ∃ v1, (gnolandGetValidatorInfo cc).valInfo = some v1 ∧ v1.Missed = 0 ∧ v1.Window = 100 ∧
      (hexDecodeString (trimG cc.ValAddress).data = none → v1.Conspub = v.Conspub) ∧
      (v1.Missed = v.Missed ↔ v.Missed = 0) := by
  unfold gnolandGetValidatorInfo
  refine ⟨by simp only [hw], rfl, rfl, rfl, ?_⟩
  cases hexDecodeString (trimG cc.ValAddress).data with
  | none => exact ⟨_, rfl, rfl, rfl, fun _ => by simp only [hv], eq_comm⟩
  | some bytes => exact ⟨_, rfl, rfl, rfl, fun h => Option.noConfusion h, eq_comm⟩

/-- Witness for C18, amended: the initialised state with 7 missed blocks. -/
theorem gnolandGetValidatorInfo_again_witness :
    chainWithMissed.blocksResults = some (List.replicate 512 (-1)) ∧
    (gnolandGetValidatorInfo chainWithMissed).blocksResults
      = some (List.replicate 512 (-1)) ∧
    ∃ v1, (gnolandGetValidatorInfo chainWithMissed).valInfo = some v1 ∧ v1.Missed = 0 :=
  have h := gnolandGetValidatorInfo_again chainWithMissed _ (List.replicate 512 (-1)) rfl rfl
  ⟨rfl, h.1, h.2.2.2.2.imp (fun _ hv1 => ⟨hv1.1, hv1.2.1⟩)⟩

/-- C20: a tick on an initialised ledger whose reported height is above
lastProcessedHeight, by any amount, requests only the block at the reported
height, prepends exactly one outcome to the window (unknown, -1, when the
block fetch fails) dropping the last entry, and sets lastProcessedHeight to
the reported height; a later tick reporting a height not above it makes only
the status contacts and leaves the ledger alone, so a failed block is not
fetched again.  Over any sequence of ticks lastProcessedHeight does not
decrease, and on an initialised ledger no sequence of ticks panics.  A status
whose latest_block_height does not parse has height 0 and, with
lastProcessedHeight at least 0 (as it is from its initial 0 on), the tick
requests no block and leaves the ledger and lastProcessedHeight unchanged. -/
theorem tick_height_advance (enableDash : Bool) :
    (∀ (rpc : Rpc) (cc : ChainConfig) (lph : Int) (st : GnoStatus),
      cc.noNodes = false → LedgerReady cc → (gnolandGetStatus rpc cc).1 = .ok st →
      st.SyncInfo.CatchingUp = false → lph < latestHeight st →
      ∃ r w, gnolandMonitorBlocksTick rpc enableDash cc lph = some r ∧
        cc.blocksResults = some w ∧
        r.cc.blocksResults
          = some ((gnolandCheckValidatorSigned rpc cc st.SyncInfo.LatestBlockHeight).1
              :: w.take (w.length - 1)) ∧
        recordOutcome cc (gnolandCheckValidatorSigned rpc cc st.SyncInfo.LatestBlockHeight).1
          = some r.cc ∧
        r.lastProcessedHeight = latestHeight st ∧
        r.contacts = (gnolandGetStatus rpc cc).2
          ++ (gnolandCheckValidatorSigned rpc cc st.SyncInfo.LatestBlockHeight).2 ∧
        (∀ c ∈ (gnolandCheckValidatorSigned rpc cc st.SyncInfo.LatestBlockHeight).2,
          ∃ n, cc.Nodes[c.1]? = some n ∧
            c.2 = buildRequest n "/block" (some [("height", st.SyncInfo.LatestBlockHeight)])) ∧
        (∀ err, (gnolandGetBlock rpc cc st.SyncInfo.LatestBlockHeight).1 = .error err →
          (gnolandCheckValidatorSigned rpc cc st.SyncInfo.LatestBlockHeight).1 = -1) ∧
        (∀ (rpc2 : Rpc) (st2 : GnoStatus), (gnolandGetStatus rpc2 cc).1 = .ok st2 →
          st2.SyncInfo.CatchingUp = false → latestHeight st2 ≤ latestHeight st →
          ∃ r2, gnolandMonitorBlocksTick rpc2 enableDash r.cc r.lastProcessedHeight = some r2 ∧
            r2.cc = r.cc ∧ r2.lastProcessedHeight = r.lastProcessedHeight ∧
            r2.contacts = (gnolandGetStatus rpc2 cc).2)) ∧
    (∀ (rpcs : List Rpc) (cc : ChainConfig) (lph : Int),
      (∀ r, gnolandMonitorBlocksTicks enableDash cc lph rpcs = some r →
        lph ≤ r.lastProcessedHeight) ∧
      (LedgerReady cc → ∃ r, gnolandMonitorBlocksTicks enableDash cc lph rpcs = some r ∧
        lph ≤ r.lastProcessedHeight)) ∧
    (∀ (rpc : Rpc) (cc : ChainConfig) (lph : Int) (st : GnoStatus) (v : ValInfo),
      cc.noNodes = false → (gnolandGetStatus rpc cc).1 = .ok st →
      st.SyncInfo.CatchingUp = false → parseInt64 st.SyncInfo.LatestBlockHeight = none →
      0 ≤ lph → cc.valInfo = some v →
      latestHeight st = 0 ∧
      gnolandMonitorBlocksTick rpc enableDash cc lph
        = some { cc := cc, lastProcessedHeight := lph,
                 contacts := (gnolandGetStatus rpc cc).2,
                 snapshots := if enableDash then [monitorStatus cc v 0] else [] }) := by
  refine ⟨?_, ?_, ?_⟩
  · intro rpc cc lph st hn hready hs hcu hh
    obtain ⟨cc1, v1, h1, hv1, hr1, hwin, ht⟩ := tick_advance_ready rpc enableDash cc lph st
      hn hs hcu hh hready
    obtain ⟨v, w, hv, hw, hne⟩ := hready
    obtain ⟨_, _, _, f1, f2, _⟩ := recordOutcome_frame cc cc1 _ h1
    have hcon := gnolandCheckValidatorSigned_contacts rpc cc st.SyncInfo.LatestBlockHeight
    refine ⟨_, w, ht, hw, hwin w hw, h1, rfl, rfl, hcon.1, hcon.2, ?_⟩
    intro rpc2 st2 hs2 hcu2 hh2
    have hcongr := gnolandGetStatus_congr rpc2 cc cc1 f1
    have ht2 := tick_no_advance_ready rpc2 enableDash cc1 (latestHeight st) st2 v1
      (by rw [f2, hn]) (by rw [hcongr]; exact hs2) hcu2 hh2 hv1
    rw [hcongr] at ht2
    exact ⟨_, ht2, rfl, rfl, rfl⟩
  · intro rpcs cc lph
    refine ⟨fun r h => (ticks_frame enableDash rpcs cc lph r h).2.2.2, fun hready => ?_⟩
    obtain ⟨r, h, _⟩ := ticks_ready enableDash rpcs cc lph hready
    exact ⟨r, h, (ticks_frame enableDash rpcs cc lph r h).2.2.2⟩
  · intro rpc cc lph st v hn hs hcu hp h0 hv
    have hl : latestHeight st = 0 := by simp only [latestHeight, hp]
    refine ⟨hl, ?_⟩
    have ht := tick_no_advance_ready rpc enableDash cc lph st v hn hs hcu (by omega) hv
    rw [hl] at ht
    exact ht

/-- Witness for C20: from lastProcessedHeight 0 the network reports height 100
and the block does not decode; the tick records unknown and moves to 100. -/
theorem tick_height_advance_witness :
    chainWithMissed.noNodes = false ∧ LedgerReady chainWithMissed ∧
    (gnolandGetStatus rpcBlockGarbled chainWithMissed).1 = .ok statusAt100 ∧
    (0 : Int) < latestHeight statusAt100 ∧
    (gnolandCheckValidatorSigned rpcBlockGarbled chainWithMissed "100").1 = -1 ∧
    ∃ r w, gnolandMonitorBlocksTick rpcBlockGarbled true chainWithMissed 0 = some r ∧
      chainWithMissed.blocksResults = some w ∧
      r.cc.blocksResults
        = some ((gnolandCheckValidatorSigned rpcBlockGarbled chainWithMissed "100").1
            :: w.take (w.length - 1)) ∧
      r.lastProcessedHeight = latestHeight statusAt100 :=
  have hready : LedgerReady chainWithMissed := ⟨_, _, rfl, rfl, by decide⟩
  have h := (tick_height_advance true).1 rpcBlockGarbled chainWithMissed 0 statusAt100
    rfl hready (by decide) rfl (by decide)
  ⟨rfl, hready, by decide, by decide, by decide,
    h.imp (fun _ hr => hr.imp (fun _ hw => ⟨hw.1, hw.2.1, hw.2.2.1, hw.2.2.2.2.1⟩))⟩

end Tenderduty
